import Mathlib

/-!
Verification development for the ADS-B terminal dashboard's state-aggregation
engine (`src/app.rs`, `src/model.rs`, `src/watchlist.rs`, `src/routes.rs`).

Shallow embedding conventions:
* `SystemTime` and `Duration` are modelled as rational numbers of seconds (`ℚ`);
  `SystemTime::duration_since` becomes `durationSince`, returning `none` when the
  argument is later than the receiver (the `Err` case).
* Rust `f64` values (rates, coordinates, EMA values) are modelled as `ℚ`.
  The two genuinely transcendental / floating-point operations are abstracted:
  `exp(-dt / tau)` is a function parameter `expApprox : ℚ → ℚ` and the haversine
  `distance_mi` is a function parameter `distanceMi`; theorems either hold for
  every choice of these parameters or take the analytically relevant facts
  (`0 < exp x < 1` for `x < 0`) as hypotheses.
* `u64` counters are `ℕ` (with `Nat` truncated subtraction matching
  `saturating_sub`), `i64` fields are `ℤ`.
* `HashMap` is an association list with insert-overwrite (`alInsert`) and
  key lookup (`alFind`); `retain` is `List.filter`.
* `VecDeque` is a `List` with `push_back = · ++ [x]` and `pop_front = drop`.
-/

/-- ASCII whitespace recognizer behind the `str::trim` model. -/
def isWsChar (c : Char) : Bool :=
  c = ' ' || c = '\t' || c = '\n' || c = '\r'

/-- `str::trim` over the character list (whitespace modelled as ASCII). -/
def trimChars (l : List Char) : List Char :=
  ((l.dropWhile isWsChar).reverse.dropWhile isWsChar).reverse

/-- `str::trim`, kernel-reducible (Lean's positional `String.trim` does not
reduce under `decide`). -/
def strTrim (s : String) : String := String.mk (trimChars s.data)

/-- `u8::to_ascii_lowercase` on one character. -/
def lowerChar (c : Char) : Char :=
  if 'A' ≤ c && c ≤ 'Z' then Char.ofNat (c.toNat + 32) else c

/-- `str::to_ascii_lowercase`, kernel-reducible. -/
def asciiLower (s : String) : String := String.mk (s.data.map lowerChar)

/-- `str::is_empty`, kernel-reducible. -/
def strIsEmpty (s : String) : Bool := s.data.isEmpty

/-- Substring test: `strContainsSub hay needle` models Rust `hay.contains(needle)`. -/
def strContainsSub (hay needle : String) : Bool :=
  hay.data.tails.any (fun t => needle.data.isPrefixOf t)

/-- Accumulator loop of the `str::split` model. -/
def splitCharsAux (p : Char → Bool) (cur : List Char) :
    List Char → List (List Char)
  | [] => [cur.reverse]
  | c :: rest =>
    if p c then cur.reverse :: splitCharsAux p [] rest
    else splitCharsAux p (c :: cur) rest

/-- `str::split` on a character predicate (keeps empty pieces, like Rust). -/
def splitChars (p : Char → Bool) (l : List Char) : List (List Char) :=
  splitCharsAux p [] l

/-- `str::parse::<u64>` (optional leading `+`, then decimal digits); overflow
beyond `u64` is not modelled. -/
def parseNatChars (l : List Char) : Option ℕ :=
  let l := match l with
    | '+' :: rest => rest
    | other => other
  if l.isEmpty then none
  else if l.all Char.isDigit then
    some (l.foldl (fun n c => 10 * n + (c.toNat - 48)) 0)
  else none

/-- Models `str::trim_end_matches('s')`: drop every trailing `s` character. -/
def dropTrailingS (l : List Char) : List Char :=
  (l.reverse.dropWhile (fun c => c = 's')).reverse

/-- Association-list insert with overwrite, modelling `HashMap::insert`. -/
def alInsert {α : Type} (k : String) (v : α) (m : List (String × α)) :
    List (String × α) :=
  (k, v) :: m.filter (fun p => p.1 != k)

/-- Association-list lookup, modelling `HashMap::get`. -/
def alFind {α : Type} (k : String) (m : List (String × α)) : Option α :=
  (m.find? (fun p => p.1 == k)).map (fun p => p.2)

/-- `SystemTime::duration_since`: `none` models the `Err` case (earlier > now). -/
def durationSince (now earlier : ℚ) : Option ℚ :=
  if earlier ≤ now then some (now - earlier) else none

/-- `Duration::as_secs` on a nonnegative rational duration (truncates). -/
def ratSecs (q : ℚ) : ℕ := q.floor.toNat

/-- `src/app.rs normalize_hex`: trim and ASCII-lowercase. -/
def normalize_hex (value : String) : String := asciiLower (strTrim value)

/-- `src/app.rs normalize_callsign`: trim and ASCII-lowercase. -/
def normalize_callsign (value : String) : String := asciiLower (strTrim value)

/-- `src/app.rs normalize_text`: trim and ASCII-lowercase. -/
def normalize_text (value : String) : String := asciiLower (strTrim value)

/-- `src/app.rs is_rate_limited_message`. -/
def is_rate_limited_message (message : String) : Bool :=
  let msg := asciiLower message
  strContainsSub msg " 429" || strContainsSub msg "429 " ||
    strContainsSub msg "too many requests" || strContainsSub msg "rate limit"

/-- `src/app.rs parse_retry_after_hint`: first token of the form
`retry-after=<n>s` (split on space and parentheses), trailing `s` stripped. -/
def parse_retry_after_hint (message : String) : Option ℕ :=
  (splitChars (fun c => c = ' ' || c = '(' || c = ')') message.data).findSome?
    (fun part =>
      if ("retry-after=").data.isPrefixOf part then
        parseNatChars (dropTrailingS (part.drop 12))
      else none)

/-- `src/app.rs route_backoff_duration` (result in whole seconds). -/
def route_backoff_duration (attempts : ℕ) : ℕ :=
  if attempts = 0 then 0
  else
    let shift := min (attempts - 1) 7
    min (2 * 2 ^ shift) 300

/-- `src/app.rs match_text`. -/
def match_text (needle haystack mode : String) : Bool :=
  if strIsEmpty needle then false
  else if mode = "prefix" then needle.data.isPrefixOf haystack.data
  else if mode = "contains" then strContainsSub haystack needle
  else haystack == needle

/-- `src/model.rs Aircraft`: every field optional, strings as `String`,
`f64` as `ℚ`, `i64` as `ℤ`, the `u64` message counter as `ℕ`. -/
structure Aircraft where
  hex : Option String := none
  kind : Option String := none
  flight : Option String := none
  r : Option String := none
  t : Option String := none
  desc : Option String := none
  own_op : Option String := none
  year : Option String := none
  alt_baro : Option ℤ := none
  alt_geom : Option ℤ := none
  gs : Option ℚ := none
  track : Option ℚ := none
  baro_rate : Option ℤ := none
  category : Option String := none
  nav_qnh : Option ℚ := none
  nav_altitude_mcp : Option ℤ := none
  lat : Option ℚ := none
  lon : Option ℚ := none
  nic : Option ℤ := none
  rc : Option ℤ := none
  seen_pos : Option ℚ := none
  version : Option ℤ := none
  nic_baro : Option ℤ := none
  nac_p : Option ℤ := none
  nac_v : Option ℤ := none
  sil : Option ℤ := none
  sil_type : Option String := none
  alert : Option ℤ := none
  spi : Option ℤ := none
  messages : Option ℕ := none
  seen : Option ℚ := none
  rssi : Option ℚ := none
  deriving Repr, DecidableEq

/-- `src/model.rs ApiResponse` (the Raw/Display snapshot shape). -/
structure ApiResponse where
  now : Option ℤ := none
  messages : Option ℕ := none
  aircraft : List Aircraft := []
  deriving Repr, DecidableEq

/-- `src/app.rs TrendDir`. -/
inductive TrendDir where
  | up
  | down
  | flat
  | unknown
  deriving Repr, DecidableEq

/-- `src/app.rs Trend`. -/
structure Trend where
  alt : TrendDir
  gs : TrendDir
  deriving Repr, DecidableEq

/-- `src/app.rs Metrics` (previous altitude/speed per hex key). -/
structure Metrics where
  alt_baro : Option ℤ := none
  gs : Option ℚ := none
  deriving Repr, DecidableEq

/-- `src/app.rs TrailPoint` (`at` renamed `atTime`: `at` is a Lean keyword). -/
structure TrailPoint where
  lat : ℚ
  lon : ℚ
  atTime : ℚ
  deriving Repr, DecidableEq

/-- `src/app.rs SiteLocation`. -/
structure SiteLocation where
  lat : ℚ
  lon : ℚ
  alt_m : ℚ
  deriving Repr, DecidableEq

/-- `src/app.rs Notification` (`at` renamed `atTime`: `at` is a Lean keyword). -/
structure Notification where
  message : String
  atTime : ℚ
  deriving Repr, DecidableEq

/-- `src/app.rs RouteInfo` (route cache entry). -/
structure RouteInfo where
  origin : Option String := none
  destination : Option String := none
  route : Option String := none
  fetched_at : ℚ := 0
  deriving Repr, DecidableEq

/-- `src/routes.rs RouteResult`. -/
structure RouteResult where
  callsign : String
  origin : Option String := none
  destination : Option String := none
  route : Option String := none
  deriving Repr, DecidableEq

/-- `src/app.rs AircraftRate` (per-aircraft rate state). -/
structure AircraftRate where
  last_messages : ℕ
  last_time : ℚ
  last_rate_time : ℚ
  ema : Option ℚ
  rate : Option ℚ
  deriving Repr, DecidableEq

/-- `src/app.rs PerformanceSample`. -/
structure PerformanceSample where
  msg_rate : Option ℚ := none
  flights : ℕ := 0
  rssi_avg : Option ℚ := none
  deriving Repr, DecidableEq

/-- `src/watchlist.rs WatchEntry`. -/
structure WatchEntry where
  id : Option String := none
  label : Option String := none
  match_type : String
  value : String
  enabled : Option Bool := none
  notify : Option Bool := none
  priority : Option ℤ := none
  mode : Option String := none
  color : Option String := none
  deriving Repr, DecidableEq

/-- `WatchEntry::is_enabled`. -/
def WatchEntry.is_enabled (e : WatchEntry) : Bool := e.enabled.getD true

/-- `WatchEntry::notify_enabled`. -/
def WatchEntry.notify_enabled (e : WatchEntry) : Bool := e.notify.getD true

/-- `WatchEntry::priority` (named `priorityD` because the field keeps the
source field name `priority`). -/
def WatchEntry.priorityD (e : WatchEntry) : ℤ := e.priority.getD 0

/-- `WatchEntry::match_mode`. -/
def WatchEntry.match_mode (e : WatchEntry) : String := e.mode.getD "exact"

/-- `WatchEntry::entry_id`. -/
def WatchEntry.entry_id (e : WatchEntry) : String :=
  match e.id with
  | some i =>
    if strIsEmpty (strTrim i) then
      match e.label with
      | some l =>
        if strIsEmpty (strTrim l) then e.match_type ++ ":" ++ e.value else strTrim l
      | none => e.match_type ++ ":" ++ e.value
    else strTrim i
  | none =>
    match e.label with
    | some l =>
      if strIsEmpty (strTrim l) then e.match_type ++ ":" ++ e.value else strTrim l
    | none => e.match_type ++ ":" ++ e.value

/-- The engine state: the fields of `src/app.rs App` that carry the
state-aggregation and temporal-derivation logic (rendering/input fields of the
`App` struct are omitted; no claim mentions them). -/
structure AppState where
  data : ApiResponse := {}
  raw_data : ApiResponse := {}
  smooth_mode : Bool := false
  smooth_merge : Bool := false
  ui_interval : ℚ := 0
  last_swap : Option ℚ := none
  last_update : Option ℚ := none
  last_error : Option String := none
  last_msg_total : Option ℕ := none
  last_msg_time : Option ℚ := none
  msg_samples : List (ℚ × ℕ) := []
  msg_rate_window : ℚ := 10
  msg_rate_min_secs : ℚ := 1 / 20
  msg_rate : Option ℚ := none
  msg_rate_ema : Option ℚ := none
  msg_rate_display : Option ℚ := none
  msg_rate_last_display : Option ℚ := none
  aircraft_rates : List (String × AircraftRate) := []
  avg_aircraft_rate : Option ℚ := none
  total_aircraft_rate_ema : Option ℚ := none
  total_aircraft_rate : Option ℚ := none
  total_aircraft_rate_time : Option ℚ := none
  perf_samples : List PerformanceSample := []
  perf_max_samples : ℕ := 120
  seen_times : List (String × ℚ) := []
  last_metrics : List (String × Metrics) := []
  trend_cache : List (String × Trend) := []
  trail_points : List (String × List TrailPoint) := []
  trail_len : ℕ := 20
  demo_mode : Bool := false
  site : Option SiteLocation := none
  notify_radius_mi : ℚ := 0
  overpass_mi : ℚ := 0
  notify_cooldown : ℚ := 120
  notified_recent : List (String × ℚ) := []
  watch_notified_recent : List (String × ℚ) := []
  notifications : List Notification := []
  watchlist_enabled : Bool := false
  watchlist : List WatchEntry := []
  route_enabled : Bool := false
  route_cache : List (String × RouteInfo) := []
  route_last_request : List (String × ℚ) := []
  route_ttl : ℚ := 0
  route_refresh : ℚ := 0
  route_batch : ℕ := 0
  route_backoff_until : Option ℚ := none
  route_backoff_attempts : ℕ := 0
  route_error : Option (String × ℚ) := none

/-- The per-aircraft identity key used (inline) by `update_aircraft_rates`,
`update_notifications`, `update_watchlist_notifications` and
`merge_api_response`: `hex:<normalized hex>` if a hex id is present, else
`flt:<normalized callsign>` if a callsign is present, else nothing. -/
def aircraftKey (ac : Aircraft) : Option String :=
  match ac.hex with
  | some hex => some ("hex:" ++ normalize_hex hex)
  | none =>
    match ac.flight with
    | some flight => some ("flt:" ++ normalize_callsign flight)
    | none => none

/-- `App::site`: the proximity site, suppressed in demo mode. -/
def siteOf (s : AppState) : Option SiteLocation :=
  if s.demo_mode then none else s.site

/-- `App::note_route_failure`: on a rate-limit-shaped failure message,
bump the consecutive-failure counter (u32 `saturating_add`) and set the
backoff deadline to `now + max(route_backoff_duration(attempts), retry-after hint)`. -/
def note_route_failure (s : AppState) (message : String) (now : ℚ) : AppState :=
  if !is_rate_limited_message message then s
  else
    let attempts := min (s.route_backoff_attempts + 1) 4294967295
    let retryAfter := (parse_retry_after_hint message).getD 0
    let backoff := max (route_backoff_duration attempts) retryAfter
    { s with
      route_backoff_attempts := attempts
      route_backoff_until := some (now + (backoff : ℚ)) }

/-- `App::apply_routes`: upsert cache entries keyed by normalized callsign and
clear all backoff state.  The source stamps entries with `SystemTime::now()`;
that ambient clock is the explicit `now` parameter here. -/
def apply_routes (s : AppState) (results : List RouteResult) (now : ℚ) : AppState :=
  let cache := results.foldl
    (fun c rr =>
      alInsert (normalize_callsign rr.callsign)
        { origin := rr.origin, destination := rr.destination,
          route := rr.route, fetched_at := now } c)
    s.route_cache
  { s with
    route_cache := cache
    route_error := none
    route_backoff_until := none
    route_backoff_attempts := 0 }

/-- Outcome of the file write inside `App::save_watchlist` (the write itself is
I/O and out of the model): no configured path, successful save, or error. -/
inductive SaveOutcome where
  | noPath
  | saved
  | failed (err : String)
  deriving Repr, DecidableEq

/-- `App::save_watchlist`, notification effect only: pushes one status
notification; note that, unlike the alert passes, it does not truncate the
notification list.  `now` is the source's `SystemTime::now()`. -/
def save_watchlist (s : AppState) (outcome : SaveOutcome) (now : ℚ) : AppState :=
  match outcome with
  | SaveOutcome.noPath =>
    { s with notifications :=
        s.notifications ++ [{ message := "WATCHLIST no file path", atTime := now }] }
  | SaveOutcome.saved =>
    { s with notifications :=
        s.notifications ++ [{ message := "WATCHLIST saved", atTime := now }] }
  | SaveOutcome.failed err =>
    { s with notifications :=
        s.notifications ++ [{ message := "WATCHLIST ERR " ++ err, atTime := now }] }

/-- `App::route_for`: cache lookup by normalized callsign, falling back to
normalized hex. -/
def route_for (s : AppState) (ac : Aircraft) : Option RouteInfo :=
  match ac.flight with
  | some callsign =>
    match alFind (normalize_callsign callsign) s.route_cache with
    | some info => some info
    | none =>
      match ac.hex with
      | some hex => alFind (normalize_hex hex) s.route_cache
      | none => none
  | none =>
    match ac.hex with
    | some hex => alFind (normalize_hex hex) s.route_cache
    | none => none

/-- `src/app.rs watch_entry_matches`. -/
def watch_entry_matches (entry : WatchEntry) (ac : Aircraft)
    (route : Option RouteInfo) : Bool :=
  let matchType := asciiLower (strTrim entry.match_type)
  let mode := entry.match_mode
  let value := strTrim entry.value
  if strIsEmpty value then false
  else if matchType = "hex" || matchType = "icao" || matchType = "icao_hex" then
    match ac.hex with
    | some hex => match_text (normalize_hex value) (normalize_hex hex) mode
    | none => false
  else if matchType = "callsign" || matchType = "flight" || matchType = "cs" then
    match ac.flight with
    | some cs => match_text (normalize_callsign value) (normalize_callsign cs) mode
    | none => false
  else if matchType = "reg" || matchType = "registration" then
    match ac.r with
    | some reg => match_text (normalize_text value) (normalize_text reg) mode
    | none => false
  else if matchType = "type" then
    match ac.t with
    | some ty => match_text (normalize_text value) (normalize_text ty) mode
    | none => false
  else if matchType = "owner" || matchType = "operator" || matchType = "ownop" then
    match ac.own_op with
    | some owner => match_text (normalize_text value) (normalize_text owner) mode
    | none => false
  else if matchType = "category" then
    match ac.category with
    | some cat => match_text (normalize_text value) (normalize_text cat) mode
    | none => false
  else if matchType = "route" then
    match route with
    | none => false
    | some info =>
      let routeText :=
        match info.origin, info.destination with
        | some origin, some dest =>
          if !strIsEmpty (strTrim origin) && !strIsEmpty (strTrim dest) then
            origin ++ "-" ++ dest
          else ""
        | _, _ => ""
      let routeText :=
        if strIsEmpty routeText then
          match info.route with
          | some rt => rt
          | none => routeText
        else routeText
      match_text (normalize_text value) (normalize_text routeText) mode
  else false

/-- Loop body of `App::watch_entry_for`: keep the current best (entry and its
priority) unless this rule is enabled, matches, and either nothing was kept yet
or it has strictly higher priority. -/
def watchBestStep (ac : Aircraft) (route : Option RouteInfo)
    (best : Option WatchEntry × ℤ) (entry : WatchEntry) :
    Option WatchEntry × ℤ :=
  if !entry.is_enabled then best
  else if !watch_entry_matches entry ac route then best
  else if best.1.isNone || entry.priorityD > best.2 then (some entry, entry.priorityD)
  else best

/-- `App::watch_entry_for`: highest-priority matching enabled rule, ties kept
in insertion order.  The initial sentinel priority is `i64::MIN`. -/
def watch_entry_for (s : AppState) (ac : Aircraft) : Option WatchEntry :=
  if !s.watchlist_enabled then none
  else
    (s.watchlist.foldl (watchBestStep ac (route_for s ac))
      (none, -(2 ^ 63 : ℤ))).1

/-- `src/app.rs fill_string`: fill a null-or-blank string field from the
(trimmed) previous value; keep a non-blank current value. -/
def fill_string (target source : Option String) : Option String :=
  let missing :=
    match target with
    | some s => strIsEmpty (strTrim s)
    | none => true
  if missing then
    match source with
    | some value =>
      if strIsEmpty (strTrim value) then target else some (strTrim value)
    | none => target
  else target

/-- `src/app.rs fill_copy`: fill a null copyable field, keep a present one. -/
def fill_copy {α : Type} (target source : Option α) : Option α :=
  match target with
  | none => source
  | some v => some v

/-- Per-aircraft body of `src/app.rs merge_api_response`: fill every
null-or-blank field of `ac` from `prevAc`. -/
def mergeAircraft (ac prevAc : Aircraft) : Aircraft :=
  { ac with
    hex := fill_string ac.hex prevAc.hex
    kind := fill_string ac.kind prevAc.kind
    flight := fill_string ac.flight prevAc.flight
    r := fill_string ac.r prevAc.r
    t := fill_string ac.t prevAc.t
    desc := fill_string ac.desc prevAc.desc
    own_op := fill_string ac.own_op prevAc.own_op
    year := fill_string ac.year prevAc.year
    category := fill_string ac.category prevAc.category
    sil_type := fill_string ac.sil_type prevAc.sil_type
    alt_baro := fill_copy ac.alt_baro prevAc.alt_baro
    alt_geom := fill_copy ac.alt_geom prevAc.alt_geom
    gs := fill_copy ac.gs prevAc.gs
    track := fill_copy ac.track prevAc.track
    baro_rate := fill_copy ac.baro_rate prevAc.baro_rate
    nav_qnh := fill_copy ac.nav_qnh prevAc.nav_qnh
    nav_altitude_mcp := fill_copy ac.nav_altitude_mcp prevAc.nav_altitude_mcp
    lat := fill_copy ac.lat prevAc.lat
    lon := fill_copy ac.lon prevAc.lon
    nic := fill_copy ac.nic prevAc.nic
    rc := fill_copy ac.rc prevAc.rc
    seen_pos := fill_copy ac.seen_pos prevAc.seen_pos
    version := fill_copy ac.version prevAc.version
    nic_baro := fill_copy ac.nic_baro prevAc.nic_baro
    nac_p := fill_copy ac.nac_p prevAc.nac_p
    nac_v := fill_copy ac.nac_v prevAc.nac_v
    sil := fill_copy ac.sil prevAc.sil
    alert := fill_copy ac.alert prevAc.alert
    spi := fill_copy ac.spi prevAc.spi
    messages := fill_copy ac.messages prevAc.messages
    seen := fill_copy ac.seen prevAc.seen
    rssi := fill_copy ac.rssi prevAc.rssi }

/-- The identity-keyed map over the previous snapshot's aircraft built at the
top of `merge_api_response` (later duplicates overwrite earlier ones). -/
def prevAircraftMap (l : List Aircraft) : List (String × Aircraft) :=
  l.foldl
    (fun m ac =>
      match aircraftKey ac with
      | some key => alInsert key ac m
      | none => m)
    []

/-- `src/app.rs merge_api_response`. -/
def merge_api_response (target prev : ApiResponse) : ApiResponse :=
  let now := if target.now.isNone then prev.now else target.now
  let messages := if target.messages.isNone then prev.messages else target.messages
  let prevMap := prevAircraftMap prev.aircraft
  let aircraft := target.aircraft.map
    (fun ac =>
      match aircraftKey ac with
      | none => ac
      | some key =>
        match alFind key prevMap with
        | none => ac
        | some prevAc => mergeAircraft ac prevAc)
  { now := now, messages := messages, aircraft := aircraft }

/-- `App::swap_snapshot`: replace the display snapshot with the latest raw
snapshot, field-merged with the previous display snapshot when merge smoothing
is on. -/
def swap_snapshot (s : AppState) : AppState :=
  let next := if s.smooth_merge then merge_api_response s.raw_data s.data else s.raw_data
  { s with data := next }

/-- `src/app.rs compare_i64`. -/
def compare_i64 (prev current : Option ℤ) : TrendDir :=
  match prev, current with
  | some p, some c =>
    if c > p then TrendDir.up else if c < p then TrendDir.down else TrendDir.flat
  | _, _ => TrendDir.unknown

/-- `src/app.rs compare_f64`. -/
def compare_f64 (prev current : Option ℚ) : TrendDir :=
  match prev, current with
  | some p, some c =>
    if c > p then TrendDir.up else if c < p then TrendDir.down else TrendDir.flat
  | _, _ => TrendDir.unknown

/-- `App::update_trends`: per hex-keyed aircraft, classify altitude and speed
against the previously stored metrics and overwrite them. -/
def update_trends (s : AppState) (d : ApiResponse) : AppState :=
  let res := d.aircraft.foldl
    (fun (acc : List (String × Trend) × List (String × Metrics)) ac =>
      match ac.hex with
      | some hex =>
        let key := normalize_hex hex
        let prev := (alFind key acc.2).getD {}
        let current : Metrics := { alt_baro := ac.alt_baro, gs := ac.gs }
        let trend : Trend :=
          { alt := compare_i64 prev.alt_baro current.alt_baro
            gs := compare_f64 prev.gs current.gs }
        (alInsert key trend acc.1, alInsert key current acc.2)
      | none => acc)
    (s.trend_cache, s.last_metrics)
  { s with trend_cache := res.1, last_metrics := res.2 }

/-- Loop body of `App::update_trails` for one aircraft: append the position to
the hex-keyed trail unless it is within 1e-5 degrees of the last point in both
axes, then truncate the front down to `maxLen`. -/
def updateTrailsStep (maxLen : ℕ) (nowTime : ℚ)
    (trails : List (String × List TrailPoint)) (ac : Aircraft) :
    List (String × List TrailPoint) :=
  match ac.hex, ac.lat, ac.lon with
  | some hex, some lat, some lon =>
    let key := normalize_hex hex
    let entry := (alFind key trails).getD []
    let isDup :=
      match entry.getLast? with
      | some last => |last.lat - lat| < 1 / 100000 && |last.lon - lon| < 1 / 100000
      | none => false
    if isDup then trails
    else
      let appended := entry ++ [{ lat := lat, lon := lon, atTime := nowTime }]
      let final :=
        if appended.length > maxLen then appended.drop (appended.length - maxLen)
        else appended
      alInsert key final trails
  | _, _, _ => trails

/-- `App::update_trails` (`trail_len` treated as at least 1). -/
def update_trails (s : AppState) (d : ApiResponse) (nowTime : ℚ) : AppState :=
  { s with trail_points :=
      d.aircraft.foldl (updateTrailsStep (max s.trail_len 1) nowTime) s.trail_points }

/-- `App::update_seen_times`. -/
def update_seen_times (s : AppState) (d : ApiResponse) (nowTime : ℚ) : AppState :=
  let seen := d.aircraft.foldl
    (fun m ac =>
      match ac.hex with
      | some hex => alInsert (normalize_hex hex) nowTime m
      | none => m)
    s.seen_times
  { s with seen_times := seen }

/-- Render the alert distance.  The source formats the `f64` distance with one
decimal (`{dist:.1}` in the message); the exact text is irrelevant to every
claim, so the rational distance is rendered with `toString`. -/
def fmtMi (q : ℚ) : String := toString q

/-- `HashMap::retain` pass shared by both notifier passes: keep entries whose
recorded time is within `maxAge` of `now` (entries in the future are kept,
matching `unwrap_or(true)`). -/
def pruneRecent (recent : List (String × ℚ)) (now maxAge : ℚ) :
    List (String × ℚ) :=
  recent.filter
    (fun p =>
      match durationSince now p.2 with
      | some d => decide (d ≤ maxAge)
      | none => true)

/-- Loop body of `App::update_notifications` for one aircraft, acting on the
pair (recency map, notification list). -/
def notifyStep (distanceMi : ℚ → ℚ → ℚ → ℚ → ℚ) (site : SiteLocation)
    (radius overpass cooldown now : ℚ)
    (acc : List (String × ℚ) × List Notification) (ac : Aircraft) :
    List (String × ℚ) × List Notification :=
  match ac.lat, ac.lon with
  | some lat, some lon =>
    let dist := distanceMi site.lat site.lon lat lon
    if dist > radius then acc
    else
      match aircraftKey ac with
      | none => acc
      | some key =>
        let shouldNotify :=
          match alFind key acc.1 with
          | some last =>
            match durationSince now last with
            | some d => decide (d ≥ cooldown)
            | none => true
          | none => true
        if !shouldNotify then acc
        else
          let recent := alInsert key now acc.1
          let callsign := strTrim (ac.flight.getD "--")
          let reg := ac.r.getD "--"
          let pfx := if dist ≤ overpass then "OVER" else "NEAR"
          let message := pfx ++ " " ++ callsign ++ " " ++ reg ++ " " ++ fmtMi dist ++ "mi"
          (recent, acc.2 ++ [{ message := message, atTime := now }])
  | _, _ => acc

/-- Cap applied at the end of both notifier passes:
`if len > 10 { drain(0..len - 10) }`. -/
def capNotifications (l : List Notification) : List Notification :=
  if l.length > 10 then l.drop (l.length - 10) else l

/-- `App::update_notifications`: proximity alerting with recency pruning,
per-identity cooldown and the 10-entry notification cap.  The floating-point
haversine `distance_mi` is the abstract parameter `distanceMi`. -/
def update_notifications (distanceMi : ℚ → ℚ → ℚ → ℚ → ℚ) (s : AppState)
    (d : ApiResponse) (now : ℚ) : AppState :=
  match siteOf s with
  | none => s
  | some site =>
    if s.notify_radius_mi ≤ 0 then s
    else
      let maxAgeSecs : ℕ := max (4 * ratSecs s.notify_cooldown) 60
      let recent0 := pruneRecent s.notified_recent now (maxAgeSecs : ℚ)
      let res := d.aircraft.foldl
        (notifyStep distanceMi site s.notify_radius_mi s.overpass_mi
          s.notify_cooldown now)
        (recent0, s.notifications)
      { s with
        notified_recent := res.1
        notifications := capNotifications res.2 }

/-- Loop body of `App::update_watchlist_notifications` for one aircraft. -/
def watchNotifyStep (s : AppState) (cooldown now : ℚ)
    (acc : List (String × ℚ) × List Notification) (ac : Aircraft) :
    List (String × ℚ) × List Notification :=
  match watch_entry_for s ac with
  | none => acc
  | some entry =>
    if !entry.notify_enabled then acc
    else
      match aircraftKey ac with
      | none => acc
      | some key =>
        let entryId := entry.entry_id
        let notifyKey := "watch:" ++ entryId ++ ":" ++ key
        let shouldNotify :=
          match alFind notifyKey acc.1 with
          | some last =>
            match durationSince now last with
            | some d => decide (d ≥ cooldown)
            | none => true
          | none => true
        if !shouldNotify then acc
        else
          let recent := alInsert notifyKey now acc.1
          let callsign := strTrim (ac.flight.getD "--")
          let reg := ac.r.getD "--"
          let label :=
            match entry.label with
            | some l => if strIsEmpty (strTrim l) then entryId else l
            | none => entryId
          let message := "WATCH " ++ label ++ " " ++ callsign ++ " " ++ reg
          (recent, acc.2 ++ [{ message := message, atTime := now }])

/-- `App::update_watchlist_notifications`. -/
def update_watchlist_notifications (s : AppState) (d : ApiResponse) (now : ℚ) :
    AppState :=
  if !s.watchlist_enabled || s.watchlist.isEmpty then s
  else
    let maxAgeSecs : ℕ := max (4 * ratSecs s.notify_cooldown) 60
    let recent0 := pruneRecent s.watch_notified_recent now (maxAgeSecs : ℚ)
    let res := d.aircraft.foldl (watchNotifyStep s s.notify_cooldown now)
      (recent0, s.notifications)
    { s with
      watch_notified_recent := res.1
      notifications := capNotifications res.2 }

/-- `App::apply_rate_decay`: decay the global EMA toward zero once the silence
exceeds the hold duration.  `expApprox` models the `f64` `exp` applied to the
(negative) exponent `-dt / tau`. -/
def apply_rate_decay (expApprox : ℚ → ℚ) (s : AppState) (nowTime : ℚ) : AppState :=
  match s.msg_rate_ema with
  | none => s
  | some prev =>
    let last := s.last_msg_time.getD nowTime
    let dt := (durationSince nowTime last).getD 0
    let hold := max s.msg_rate_window 2
    if dt ≤ hold then s
    else
      let tau := max (s.msg_rate_window * 4) 3
      let decay := expApprox (-dt / tau)
      let ema := max (prev * decay) 0
      { s with msg_rate_ema := some ema, msg_rate := some ema,
               msg_rate_display := some ema }

/-- The `while` loop in `update_rate` popping window samples older than the
window from the front of the deque. -/
def pruneSamples (window nowTime : ℚ) : List (ℚ × ℕ) → List (ℚ × ℕ)
  | [] => []
  | (t, m) :: rest =>
    match durationSince nowTime t with
    | some d => if d > window then pruneSamples window nowTime rest else (t, m) :: rest
    | none => (t, m) :: rest

/-- `App::update_rate`: global message-rate estimation.  A counter lower than
the last seen one clears the sample history, the EMA and the display value; a
counter equal to the last seen one only runs decay; an advancing counter pushes
a sample, prunes the window, blends the short and window rates
(`0.7 / 0.3`) and feeds the EMA (`0.45 / 0.55`). -/
def update_rate (expApprox : ℚ → ℚ) (s : AppState) (d : ApiResponse)
    (nowTime : ℚ) : AppState :=
  match d.messages with
  | none => s
  | some messages =>
    let cleared :=
      match s.last_msg_total with
      | some lastTotal =>
        if messages < lastTotal then
          { s with msg_samples := [], msg_rate_ema := none, msg_rate_display := none }
        else s
      | none => s
    let isDup :=
      match s.last_msg_total with
      | some lastTotal => messages == lastTotal
      | none => false
    if isDup then apply_rate_decay expApprox cleared nowTime
    else
      let s1 := { cleared with
        last_msg_total := some messages
        last_msg_time := some nowTime
        msg_samples := cleared.msg_samples ++ [(nowTime, messages)] }
      let samples := pruneSamples s1.msg_rate_window nowTime s1.msg_samples
      let s2 := { s1 with msg_samples := samples }
      let windowRate : Option (ℚ × ℚ) :=
        match samples.head?, samples.getLast? with
        | some (t0, m0), some (t1, m1) =>
          match durationSince t1 t0 with
          | some deltaT => some (((m1 - m0 : ℕ) : ℚ), max deltaT s2.msg_rate_min_secs)
          | none => none
        | _, _ => none
      let shortRate : Option (ℚ × ℚ) :=
        match samples.reverse with
        | (t1, m1) :: (t0, m0) :: _ =>
          match durationSince t1 t0 with
          | some deltaT =>
            some (((m1 - m0 : ℕ) : ℚ), max deltaT (s2.msg_rate_min_secs * (1 / 2)))
          | none => none
        | _ => none
      let inst : Option ℚ :=
        match shortRate, windowRate with
        | some (dmS, sS), some (dmW, sW) =>
          some ((7 / 10) * (dmS / sS) + (3 / 10) * (dmW / sW))
        | some (dmS, sS), none => some (dmS / sS)
        | none, some (dmW, sW) => some (dmW / sW)
        | none, none => none
      match inst with
      | none => s2
      | some instRate =>
        if instRate ≤ 0 then apply_rate_decay expApprox s2 nowTime
        else
          let ema :=
            match s2.msg_rate_ema with
            | some prev => (45 / 100) * instRate + (55 / 100) * prev
            | none => instRate
          { s2 with
            msg_rate_ema := some ema
            msg_rate := some ema
            msg_rate_display := some ema
            msg_rate_last_display := some nowTime }

/-- `App::update_total_aircraft_rate`: the coarse fallback estimator fed with
the summed per-aircraft counter delta of the tick. -/
def update_total_aircraft_rate (expApprox : ℚ → ℚ) (s : AppState)
    (deltaMsgs : ℕ) (nowTime : ℚ) : AppState :=
  let hold := max s.msg_rate_window 2
  let tau := max (s.msg_rate_window * 4) 3
  if deltaMsgs > 0 then
    let lastTime := s.total_aircraft_rate_time.getD nowTime
    let secs := max ((durationSince nowTime lastTime).getD s.msg_rate_min_secs)
      s.msg_rate_min_secs
    let inst := (deltaMsgs : ℚ) / secs
    let ema :=
      match s.total_aircraft_rate_ema with
      | some prev => (45 / 100) * inst + (55 / 100) * prev
      | none => inst
    { s with
      total_aircraft_rate_ema := some ema
      total_aircraft_rate := some ema
      total_aircraft_rate_time := some nowTime }
  else
    match s.total_aircraft_rate_ema with
    | some prev =>
      let lastTime := s.total_aircraft_rate_time.getD nowTime
      let since := (durationSince nowTime lastTime).getD 0
      if since > hold then
        let decay := expApprox (-since / tau)
        let ema := max (prev * decay) 0
        { s with
          total_aircraft_rate_ema := some ema
          total_aircraft_rate := some ema
          total_aircraft_rate_time := some nowTime }
      else s
    | none => s

/-- Per-aircraft body of `App::update_aircraft_rates`, acting on the running
(rate map, present keys, rate sum, rate count, total delta) accumulator. -/
def aircraftRateStep (expApprox : ℚ → ℚ) (window minSecs maxAge nowTime : ℚ)
    (acc : List (String × AircraftRate) × List String × ℚ × ℕ × ℕ)
    (ac : Aircraft) :
    List (String × AircraftRate) × List String × ℚ × ℕ × ℕ :=
  match aircraftKey ac with
  | none => acc
  | some key =>
    let (rates, present, sum, count, totalDelta) := acc
    let present := key :: present
    match ac.messages with
    | none => (rates, present, sum, count, totalDelta)
    | some messages =>
      let entry := (alFind key rates).getD
        { last_messages := messages, last_time := nowTime,
          last_rate_time := nowTime, ema := none, rate := none }
      let (entry, totalDelta) :=
        if messages < entry.last_messages then
          ({ entry with
              ema := none, rate := none, last_messages := messages,
              last_time := nowTime, last_rate_time := nowTime }, totalDelta)
        else if messages > entry.last_messages then
          match durationSince nowTime entry.last_time with
          | some deltaT =>
            let totalDelta :=
              if deltaT ≤ maxAge then totalDelta + (messages - entry.last_messages)
              else totalDelta
            let secs := max deltaT minSecs
            let inst := ((messages - entry.last_messages : ℕ) : ℚ) / secs
            let ema :=
              match entry.ema with
              | some prev => (45 / 100) * inst + (55 / 100) * prev
              | none => inst
            ({ entry with
                ema := some ema, rate := some ema, last_messages := messages,
                last_time := nowTime, last_rate_time := nowTime }, totalDelta)
          | none =>
            ({ entry with
                last_messages := messages, last_time := nowTime,
                last_rate_time := nowTime }, totalDelta)
        else
          match entry.ema with
          | some prev =>
            let sinceChange := (durationSince nowTime entry.last_time).getD 0
            let hold := max window 2
            if sinceChange > hold then
              let dt := (durationSince nowTime entry.last_rate_time).getD 0
              if dt > 0 then
                let tau := max (window * 4) 3
                let decay := expApprox (-dt / tau)
                let ema := max (prev * decay) 0
                ({ entry with
                    ema := some ema, rate := some ema,
                    last_rate_time := nowTime }, totalDelta)
              else (entry, totalDelta)
            else (entry, totalDelta)
          | none => (entry, totalDelta)
      let rates := alInsert key entry rates
      let (sum, count) :=
        match entry.rate with
        | some rate => (sum + rate, count + 1)
        | none => (sum, count)
      (rates, present, sum, count, totalDelta)

/-- `App::update_aircraft_rates`: per-aircraft blend/EMA/decay, garbage
collection of vanished keys, average rate, and the total-delta feed into the
coarse estimator. -/
def update_aircraft_rates (expApprox : ℚ → ℚ) (s : AppState) (d : ApiResponse)
    (nowTime : ℚ) : AppState :=
  let maxAge := s.msg_rate_window + s.msg_rate_window
  let res := d.aircraft.foldl
    (aircraftRateStep expApprox s.msg_rate_window s.msg_rate_min_secs maxAge nowTime)
    (s.aircraft_rates, [], 0, 0, 0)
  let (rates, present, sum, count, totalDelta) := res
  let rates := rates.filter (fun p => present.contains p.1)
  let avg := if count > 0 then some (sum / (count : ℚ)) else none
  let s := { s with aircraft_rates := rates, avg_aircraft_rate := avg }
  update_total_aircraft_rate expApprox s totalDelta nowTime

/-- `App::msg_rate_display` (the getter): preferred rate for display,
falling back to the coarse estimator when the primary counter is stale.
The source reads `SystemTime::now()`; that clock is the `now` parameter. -/
def msgRateDisplayValue (s : AppState) (now : ℚ) : Option ℚ :=
  let globalRecent :=
    match s.last_msg_time with
    | some t =>
      match durationSince now t with
      | some d => decide (d ≤ s.msg_rate_window + s.msg_rate_window)
      | none => false
    | none => false
  if globalRecent then
    (s.msg_rate.or s.msg_rate_display).or s.total_aircraft_rate
  else
    (s.total_aircraft_rate.or s.msg_rate).or s.msg_rate_display

/-- `App::update_performance_samples`. -/
def update_performance_samples (s : AppState) (d : ApiResponse) (sysNow : ℚ) :
    AppState :=
  let flights := d.aircraft.length
  let rssiVals := d.aircraft.filterMap (fun ac => ac.rssi)
  let rssiAvg :=
    if rssiVals.length > 0 then some (rssiVals.sum / (rssiVals.length : ℚ))
    else none
  let sample : PerformanceSample :=
    { msg_rate := msgRateDisplayValue s sysNow, flights := flights,
      rssi_avg := rssiAvg }
  let samples := s.perf_samples ++ [sample]
  let samples :=
    if samples.length > s.perf_max_samples then
      samples.drop (samples.length - s.perf_max_samples)
    else samples
  { s with perf_samples := samples }

/-- The snapshot timestamp resolution at the top of `App::apply_update`:
use the source `now` (interpreted as milliseconds when implausibly large),
else fall back to the wall clock (`sysNow`, the source's `SystemTime::now()`). -/
def resolveNowTime (dataNow : Option ℤ) (sysNow : ℚ) : ℚ :=
  match dataNow with
  | some n =>
    let v := if n > 4000000000 then n / 1000 else n
    if v > 0 then (v : ℚ) else sysNow
  | none => sysNow

/-- `App::apply_update`: run every derivation pass against the snapshot, store
it as the raw snapshot, republish immediately when smoothing is off, record the
update time and clear the last error. -/
def apply_update (expApprox : ℚ → ℚ) (distanceMi : ℚ → ℚ → ℚ → ℚ → ℚ)
    (s : AppState) (d : ApiResponse) (sysNow : ℚ) : AppState :=
  let nowTime := resolveNowTime d.now sysNow
  let s := update_rate expApprox s d nowTime
  let s := update_aircraft_rates expApprox s d nowTime
  let s := update_performance_samples s d sysNow
  let s := update_seen_times s d nowTime
  let s := update_trends s d
  let s := update_trails s d nowTime
  let s := update_notifications distanceMi s d nowTime
  let s := update_watchlist_notifications s d nowTime
  let s := { s with raw_data := d }
  let s := if !s.smooth_mode then swap_snapshot s else s
  { s with last_update := some nowTime, last_error := none }

/-- `App::apply_error`: record the error message, touch nothing else. -/
def apply_error (s : AppState) (msg : String) : AppState :=
  { s with last_error := some msg }

/-- `App::maybe_swap_snapshot`: when smoothing is on, republish the display
snapshot at most once per UI interval (a zero interval republishes on every
call). -/
def maybe_swap_snapshot (s : AppState) (now : ℚ) : AppState :=
  if !s.smooth_mode then s
  else if s.ui_interval = 0 then
    { (swap_snapshot s) with last_swap := some now }
  else
    match s.last_swap with
    | some last =>
      match durationSince now last with
      | some d =>
        if d ≥ s.ui_interval then { (swap_snapshot s) with last_swap := some now }
        else s
      | none => s
    | none => { (swap_snapshot s) with last_swap := some now }

/-! ### Concrete instances used by witnesses and counterexamples -/

/-- A constant stand-in for the abstracted `exp`; the rate-reset claim holds
for every choice of the exponential. -/
def oneExp : ℚ → ℚ := fun _ => 1

/-- A concrete decay factor in `(0, 1)`, standing in for `exp` at the witness
point. -/
def halfExp : ℚ → ℚ := fun _ => 1 / 2

/-- A constant stand-in for the haversine: every aircraft is 5 miles out. -/
def constDist5 : ℚ → ℚ → ℚ → ℚ → ℚ := fun _ _ _ _ => 5

/-- The spec's example site at `(26.0, -80.0)`. -/
def siteW : SiteLocation := { lat := 26, lon := -80, alt_m := 0 }

/-- A fully identified aircraft used by the proximity witness. -/
def acW : Aircraft :=
  { hex := some "ac6668", flight := some "SWA3576", r := some "N8987Q",
    lat := some 26, lon := some (-80) }

/-- Snapshot containing only `acW`. -/
def dW : ApiResponse := { aircraft := [acW] }

/-- Proximity-notifier state: site configured, radius 10 mi, cooldown 120 s,
one recorded alert for `acW` at time 0. -/
def sProx : AppState :=
  { site := some siteW, notify_radius_mi := 10, overpass_mi := 2,
    notify_cooldown := 120, notified_recent := [("hex:ac6668", 0)] }

/-- An aircraft with a callsign but no hex id (it has an identity key). -/
def acNoHex : Aircraft :=
  { flight := some "SWA123", lat := some 26, lon := some (-80) }

/-- Snapshot containing only `acNoHex`. -/
def dNoHex : ApiResponse := { aircraft := [acNoHex] }

/-- A fixed notification for padding. -/
def n0 : Notification := { message := "x", atTime := 0 }

/-- A state whose notification ring is exactly at the cap of 10. -/
def s10c : AppState := { notifications := List.replicate 10 n0 }

/-- Rate-estimator state with an established EMA and counter at 1000. -/
def sRate : AppState :=
  { msg_rate_ema := some 5, last_msg_total := some 1000,
    last_msg_time := some 0, msg_samples := [(0, 1000)],
    msg_rate_window := 10, msg_rate_min_secs := 1 / 20 }

/-- Rate-estimator state for the decay witness (window 2 s, EMA 5). -/
def sDecay : AppState :=
  { msg_rate_ema := some 5, last_msg_time := some 0, msg_rate_window := 2 }

/-- Watchlist rule on hex `ac6668` with priority 1. -/
def entryP1 : WatchEntry := { match_type := "hex", value := "ac6668", priority := some 1 }

/-- Watchlist rule on hex `AC6668` (normalizes to the same key) with priority 5. -/
def entryP5 : WatchEntry := { match_type := "hex", value := "AC6668", priority := some 5 }

/-- Engine state with the two-rule watchlist enabled. -/
def sWatch : AppState := { watchlist_enabled := true, watchlist := [entryP1, entryP5] }

/-- Previous display-snapshot aircraft carrying `registration = "N123"`. -/
def prevRegAc : Aircraft := { hex := some "ac6668", r := some "N123", gs := some 300 }

/-- New raw-snapshot aircraft for the same identity with `registration` absent. -/
def newRegAc : Aircraft := { hex := some "ac6668" }

/-- New raw snapshot (top-level `messages` absent). -/
def tMerge : ApiResponse := { aircraft := [newRegAc] }

/-- Previous display snapshot. -/
def pMerge : ApiResponse := { now := some 1700000000, messages := some 50, aircraft := [prevRegAc] }

/-- A three-point trail for `ac6668`, already at the cap of 3. -/
def trailsW : List (String × List TrailPoint) :=
  [("ac6668",
    [{ lat := 26, lon := -80, atTime := 0 },
     { lat := 265 / 10, lon := -80, atTime := 1 },
     { lat := 27, lon := -80, atTime := 2 }])]

/-- Aircraft at a fresh position for the trail-cap witness. -/
def acTrail : Aircraft := { hex := some "ac6668", lat := some 28, lon := some (-80) }

/-- Aircraft within 1e-5 degrees of the last stored trail point. -/
def acTrailDup : Aircraft :=
  { hex := some "ac6668", lat := some 27, lon := some (-80) }

/-- Engine state holding `trailsW` with trail cap 3. -/
def sTrail : AppState := { trail_points := trailsW, trail_len := 3 }

/-- Snapshot containing only `acTrail`. -/
def dTrail : ApiResponse := { aircraft := [acTrail] }

/-- Blank-or-absent test for optional string fields (the merge's notion of a
missing value). -/
def strBlank (v : Option String) : Bool :=
  match v with
  | some s => strIsEmpty (strTrim s)
  | none => true

/-- Spec of the string fill: a non-blank current value is kept untouched, a
blank current value is replaced by the trimmed previous value when that one is
non-blank, and stays as it was otherwise. -/
def fillsStringSpec (tgt src out : Option String) : Prop :=
  (strBlank tgt = false → out = tgt) ∧
  (strBlank tgt = true → strBlank src = false →
    ∃ v, src = some v ∧ out = some (strTrim v)) ∧
  (strBlank tgt = true → strBlank src = true → out = tgt)

/-- Spec of the copy fill: an absent value is taken from the previous
snapshot, a present value is never overwritten. -/
def fillsCopySpec {α : Type} (tgt src out : Option α) : Prop :=
  (tgt = none → out = src) ∧ (∀ v, tgt = some v → out = some v)

/-- The merge contract for one aircraft: every string field and every numeric
field of the output is the fill of the new snapshot's field from the previous
snapshot's field. -/
def mergeFillSpec (ac prevAc out : Aircraft) : Prop :=
  fillsStringSpec ac.hex prevAc.hex out.hex ∧
  fillsStringSpec ac.kind prevAc.kind out.kind ∧
  fillsStringSpec ac.flight prevAc.flight out.flight ∧
  fillsStringSpec ac.r prevAc.r out.r ∧
  fillsStringSpec ac.t prevAc.t out.t ∧
  fillsStringSpec ac.desc prevAc.desc out.desc ∧
  fillsStringSpec ac.own_op prevAc.own_op out.own_op ∧
  fillsStringSpec ac.year prevAc.year out.year ∧
  fillsStringSpec ac.category prevAc.category out.category ∧
  fillsStringSpec ac.sil_type prevAc.sil_type out.sil_type ∧
  fillsCopySpec ac.alt_baro prevAc.alt_baro out.alt_baro ∧
  fillsCopySpec ac.alt_geom prevAc.alt_geom out.alt_geom ∧
  fillsCopySpec ac.gs prevAc.gs out.gs ∧
  fillsCopySpec ac.track prevAc.track out.track ∧
  fillsCopySpec ac.baro_rate prevAc.baro_rate out.baro_rate ∧
  fillsCopySpec ac.nav_qnh prevAc.nav_qnh out.nav_qnh ∧
  fillsCopySpec ac.nav_altitude_mcp prevAc.nav_altitude_mcp out.nav_altitude_mcp ∧
  fillsCopySpec ac.lat prevAc.lat out.lat ∧
  fillsCopySpec ac.lon prevAc.lon out.lon ∧
  fillsCopySpec ac.nic prevAc.nic out.nic ∧
  fillsCopySpec ac.rc prevAc.rc out.rc ∧
  fillsCopySpec ac.seen_pos prevAc.seen_pos out.seen_pos ∧
  fillsCopySpec ac.version prevAc.version out.version ∧
  fillsCopySpec ac.nic_baro prevAc.nic_baro out.nic_baro ∧
  fillsCopySpec ac.nac_p prevAc.nac_p out.nac_p ∧
  fillsCopySpec ac.nac_v prevAc.nac_v out.nac_v ∧
  fillsCopySpec ac.sil prevAc.sil out.sil ∧
  fillsCopySpec ac.alert prevAc.alert out.alert ∧
  fillsCopySpec ac.spi prevAc.spi out.spi ∧
  fillsCopySpec ac.messages prevAc.messages out.messages ∧
  fillsCopySpec ac.seen prevAc.seen out.seen ∧
  fillsCopySpec ac.rssi prevAc.rssi out.rssi

/-! ### Helper lemmas -/

theorem alFind_cons {α : Type} (p : String × α) (m : List (String × α))
    (k2 : String) :
    alFind k2 (p :: m) = if p.1 = k2 then some p.2 else alFind k2 m := by
  by_cases hp : p.1 = k2
  · simp [alFind, List.find?_cons, hp]
  · simp [alFind, List.find?_cons, hp]

theorem alFind_insert_self {α : Type} (k : String) (v : α) (m : List (String × α)) :
    alFind k (alInsert k v m) = some v := by
  simp [alFind, alInsert, List.find?_cons]

theorem alFind_filter_ne {α : Type} (k k2 : String) (m : List (String × α))
    (h : k2 ≠ k) :
    alFind k2 (m.filter (fun p => p.1 != k)) = alFind k2 m := by
  induction m with
  | nil => rfl
  | cons p rest ih =>
    by_cases hpk : p.1 = k
    · have hb : (p.1 != k) = false := by simp [hpk]
      have hp2 : ¬ (p.1 = k2) := fun e => h (e.symm.trans hpk)
      simp only [List.filter_cons, hb, Bool.false_eq_true, if_false, ih]
      rw [alFind_cons]
      simp [hp2]
    · have hb : (p.1 != k) = true := by simp [hpk]
      simp only [List.filter_cons, hb, if_true]
      rw [alFind_cons, alFind_cons, ih]

theorem alFind_insert_ne {α : Type} (k k2 : String) (v : α) (m : List (String × α))
    (h : k2 ≠ k) :
    alFind k2 (alInsert k v m) = alFind k2 m := by
  have hp2 : ¬ ((k, v).1 = k2) := fun e => h e.symm
  unfold alInsert
  rw [alFind_cons]
  simp only [hp2, if_false]
  exact alFind_filter_ne k k2 m h

theorem capNotifications_length_le (l : List Notification) :
    (capNotifications l).length ≤ 10 := by
  unfold capNotifications
  split
  · simp [List.length_drop]
    omega
  · omega

theorem capNotifications_of_le (l : List Notification) (h : l.length ≤ 10) :
    capNotifications l = l := by
  unfold capNotifications
  split
  · omega
  · rfl

/-! ### Claim C10 -/

/-- Claim C10: every successfully applied raw snapshot clears the stored
last-error (after `apply_update` the last-error field is `none` regardless of
its previous value), while `apply_error` sets only the last-error field and
leaves the display snapshot and all derived state unchanged. -/
theorem apply_update_clears_error :
    (∀ (expApprox : ℚ → ℚ) (distanceMi : ℚ → ℚ → ℚ → ℚ → ℚ) (s : AppState)
        (d : ApiResponse) (sysNow : ℚ),
      (apply_update expApprox distanceMi s d sysNow).last_error = none) ∧
    (∀ (s : AppState) (msg : String),
      apply_error s msg = { s with last_error := some msg }) := by
  constructor
  · intro expApprox distanceMi s d sysNow
    rfl
  · intro s msg
    rfl

/-! ### Claim C8 -/

/-- Claim C8, counterexample: `save_watchlist` is a notification-pushing
operation, yet pushing onto a ring already holding 10 entries leaves 11
stored notifications — the cap is not enforced by that operation. -/
theorem notification_cap_counterexample :
    s10c.notifications.length = 10 ∧
    ¬ ((save_watchlist s10c SaveOutcome.noPath 0).notifications.length ≤ 10) := by
  constructor
  · rfl
  · decide

/-- Claim C8, amended: the two alert passes (`update_notifications` and
`update_watchlist_notifications`) leave at most 10 stored notifications
whenever the ring was within the cap before (and whenever their bodies run at
all they truncate to the cap unconditionally); `save_watchlist`, however,
pushes its status notification without truncating, so the ring can transiently
exceed 10 until the next alert pass. -/
theorem notification_cap_amended :
    ∀ (distanceMi : ℚ → ℚ → ℚ → ℚ → ℚ) (s : AppState) (d : ApiResponse) (now : ℚ),
      s.notifications.length ≤ 10 →
      (update_notifications distanceMi s d now).notifications.length ≤ 10 ∧
      (update_watchlist_notifications s d now).notifications.length ≤ 10 := by
  intro distanceMi s d now h
  constructor
  · unfold update_notifications
    cases hsite : siteOf s with
    | none => simpa using h
    | some site =>
      simp only []
      split
      · simpa using h
      · exact capNotifications_length_le _
  · unfold update_watchlist_notifications
    split
    · simpa using h
    · exact capNotifications_length_le _

/-- Witness for the amended C8 cap at a concrete state. -/
theorem notification_cap_amended_witness :
    (update_notifications constDist5 sProx dW 0).notifications.length ≤ 10 ∧
    (update_watchlist_notifications sProx dW 0).notifications.length ≤ 10 :=
  notification_cap_amended constDist5 sProx dW 0 (by decide)

/-! ### Claim C7 -/

/-- Claim C7, counterexample: an aircraft with no hex id but a non-empty
callsign has an identity key, yet neither the trend pass nor the trail pass
records anything for it — both key strictly by hex. -/
theorem trend_trail_callsign_counterexample :
    aircraftKey acNoHex = some "flt:swa123" ∧
    (update_trends { } dNoHex).trend_cache = [] ∧
    (update_trails { } dNoHex 0).trail_points = [] := by
  refine ⟨by decide, rfl, rfl⟩

/-- Claim C7, amended: `update_trends` and `update_trails` key their
per-aircraft state by normalized hex id only; an aircraft record without a hex
id is skipped by both passes (no trend, no trail), even when it has a
non-empty callsign and a valid position. -/
theorem trend_trail_hex_only :
    ∀ (s : AppState) (d : ApiResponse) (now : ℚ),
      (∀ ac ∈ d.aircraft, ac.hex = none) →
      (update_trends s d).trend_cache = s.trend_cache ∧
      (update_trends s d).last_metrics = s.last_metrics ∧
      (update_trails s d now).trail_points = s.trail_points := by
  intro s d now h
  have htrend : ∀ (l : List Aircraft)
      (acc : List (String × Trend) × List (String × Metrics)),
      (∀ ac ∈ l, ac.hex = none) →
      l.foldl
        (fun acc ac =>
          match ac.hex with
          | some hex =>
            let key := normalize_hex hex
            let prev := (alFind key acc.2).getD {}
            let current : Metrics := { alt_baro := ac.alt_baro, gs := ac.gs }
            let trend : Trend :=
              { alt := compare_i64 prev.alt_baro current.alt_baro
                gs := compare_f64 prev.gs current.gs }
            (alInsert key trend acc.1, alInsert key current acc.2)
          | none => acc) acc = acc := by
    intro l
    induction l with
    | nil => intro acc _; rfl
    | cons ac rest ih =>
      intro acc hl
      have hac : ac.hex = none := hl ac (List.mem_cons_self ac rest)
      have hrest : ∀ a ∈ rest, a.hex = none :=
        fun a ha => hl a (List.mem_cons_of_mem ac ha)
      simp only [List.foldl_cons, hac]
      exact ih acc hrest
  have htrail : ∀ (l : List Aircraft) (tp : List (String × List TrailPoint)),
      (∀ ac ∈ l, ac.hex = none) →
      l.foldl (updateTrailsStep (max s.trail_len 1) now) tp = tp := by
    intro l
    induction l with
    | nil => intro tp _; rfl
    | cons ac rest ih =>
      intro tp hl
      have hac : ac.hex = none := hl ac (List.mem_cons_self ac rest)
      have hrest : ∀ a ∈ rest, a.hex = none :=
        fun a ha => hl a (List.mem_cons_of_mem ac ha)
      have hstep : updateTrailsStep (max s.trail_len 1) now tp ac = tp := by
        unfold updateTrailsStep
        rw [hac]
      simp only [List.foldl_cons, hstep]
      exact ih tp hrest
  refine ⟨?_, ?_, ?_⟩
  · show (d.aircraft.foldl _ (s.trend_cache, s.last_metrics)).1 = s.trend_cache
    rw [htrend d.aircraft (s.trend_cache, s.last_metrics) h]
  · show (d.aircraft.foldl _ (s.trend_cache, s.last_metrics)).2 = s.last_metrics
    rw [htrend d.aircraft (s.trend_cache, s.last_metrics) h]
  · show d.aircraft.foldl _ s.trail_points = s.trail_points
    exact htrail d.aircraft s.trail_points h

/-- Witness for the amended C7 at the concrete hexless aircraft. -/
theorem trend_trail_hex_only_witness :
    (update_trends { } dNoHex).trend_cache = ([] : List (String × Trend)) ∧
    (update_trends { } dNoHex).last_metrics = ([] : List (String × Metrics)) ∧
    (update_trails { } dNoHex 3).trail_points =
      ([] : List (String × List TrailPoint)) :=
  trend_trail_hex_only { } dNoHex 3 (by decide)

/-! ### Claim C1 -/

theorem note_route_failure_rate_limited (s : AppState) (msg : String) (now : ℚ)
    (h : is_rate_limited_message msg = true)
    (hcap : s.route_backoff_attempts < 4294967295) :
    (note_route_failure s msg now).route_backoff_attempts =
      s.route_backoff_attempts + 1 ∧
    (note_route_failure s msg now).route_backoff_until =
      some (now + ((max (min (2 * 2 ^ min s.route_backoff_attempts 7) 300)
        ((parse_retry_after_hint msg).getD 0) : ℕ) : ℚ)) := by
  have hmin : min (s.route_backoff_attempts + 1) 4294967295 =
      s.route_backoff_attempts + 1 := by omega
  have hdur : route_backoff_duration (s.route_backoff_attempts + 1) =
      min (2 * 2 ^ min s.route_backoff_attempts 7) 300 := by
    unfold route_backoff_duration
    simp
  unfold note_route_failure
  simp [h, hmin, hdur]

theorem backoff_secs_uncapped (a : ℕ) (ha : a ≤ 7) :
    min (2 * 2 ^ min a 7) 300 = 2 * 2 ^ a := by
  have hm : min a 7 = a := by omega
  rw [hm]
  have hpow : 2 ^ a ≤ 2 ^ 7 := Nat.pow_le_pow_right (by omega) ha
  omega

theorem note_route_failure_growth (s : AppState) (m1 m2 m3 : String)
    (n1 n2 n3 : ℚ)
    (h1 : is_rate_limited_message m1 = true)
    (h2 : is_rate_limited_message m2 = true)
    (h3 : is_rate_limited_message m3 = true)
    (p1 : parse_retry_after_hint m1 = none)
    (p2 : parse_retry_after_hint m2 = none)
    (p3 : parse_retry_after_hint m3 = none)
    (hn12 : n1 ≤ n2) (hn23 : n2 ≤ n3)
    (hcap : s.route_backoff_attempts + 3 ≤ 8) :
    ∃ u1 u2 u3 : ℚ,
      (note_route_failure s m1 n1).route_backoff_until = some u1 ∧
      (note_route_failure (note_route_failure s m1 n1) m2 n2).route_backoff_until =
        some u2 ∧
      (note_route_failure (note_route_failure (note_route_failure s m1 n1) m2 n2)
        m3 n3).route_backoff_until = some u3 ∧
      u1 < u2 ∧ u2 < u3 := by
  set a := s.route_backoff_attempts with ha
  have hc1 : a < 4294967295 := by omega
  have step1 := note_route_failure_rate_limited s m1 n1 h1 hc1
  set s1 := note_route_failure s m1 n1 with hs1
  have ha1 : s1.route_backoff_attempts = a + 1 := step1.1
  have hc2 : s1.route_backoff_attempts < 4294967295 := by omega
  have step2 := note_route_failure_rate_limited s1 m2 n2 h2 hc2
  set s2 := note_route_failure s1 m2 n2 with hs2
  have ha2 : s2.route_backoff_attempts = a + 2 := by rw [step2.1, ha1]
  have hc3 : s2.route_backoff_attempts < 4294967295 := by omega
  have step3 := note_route_failure_rate_limited s2 m3 n3 h3 hc3
  have e1 : (min (2 * 2 ^ min a 7) 300) = 2 * 2 ^ a :=
    backoff_secs_uncapped a (by omega)
  have e2 : (min (2 * 2 ^ min (a + 1) 7) 300) = 2 * 2 ^ (a + 1) :=
    backoff_secs_uncapped (a + 1) (by omega)
  have e3 : (min (2 * 2 ^ min (a + 2) 7) 300) = 2 * 2 ^ (a + 2) :=
    backoff_secs_uncapped (a + 2) (by omega)
  refine ⟨n1 + (2 * 2 ^ a : ℕ), n2 + (2 * 2 ^ (a + 1) : ℕ),
    n3 + (2 * 2 ^ (a + 2) : ℕ), ?_, ?_, ?_, ?_, ?_⟩
  · rw [step1.2, p1]
    simp [e1]
  · rw [step2.2, ha1, p2]
    simp [e2]
  · rw [step3.2, ha2, p3]
    simp [e3]
  · have hp : (2 * 2 ^ a : ℕ) < 2 * 2 ^ (a + 1) := by
      have : (2:ℕ) ^ a < 2 ^ (a + 1) := Nat.pow_lt_pow_right (by omega) (by omega)
      omega
    have hpq : ((2 * 2 ^ a : ℕ) : ℚ) < ((2 * 2 ^ (a + 1) : ℕ) : ℚ) := by
      exact_mod_cast hp
    linarith
  · have hp : (2 * 2 ^ (a + 1) : ℕ) < 2 * 2 ^ (a + 2) := by
      have : (2:ℕ) ^ (a + 1) < 2 ^ (a + 2) := Nat.pow_lt_pow_right (by omega) (by omega)
      omega
    have hpq : ((2 * 2 ^ (a + 1) : ℕ) : ℚ) < ((2 * 2 ^ (a + 2) : ℕ) : ℚ) := by
      exact_mod_cast hp
    linarith

theorem apply_routes_resets (s : AppState) (results : List RouteResult) (now : ℚ) :
    (apply_routes s results now).route_backoff_attempts = 0 ∧
    (apply_routes s results now).route_backoff_until = none := by
  constructor <;> rfl

/-- Claim C1, counterexample: (i) for the rate-limited message `"429 error"`
with no retry-after hint and failure counter going 0 → 1, the code sets the
deadline to `now + 2` seconds, not `now + 2^(min(f-1,7)) = now + 1` as the
claim states; (ii) the message `"error: http/429"` contains `"429"`, yet the
code does not treat it as rate-limit-shaped (it requires a space-adjacent
`429`), so no failure is counted. -/
theorem route_backoff_counterexample :
    is_rate_limited_message "429 error" = true ∧
    parse_retry_after_hint "429 error" = none ∧
    (note_route_failure { } "429 error" 100).route_backoff_until = some 102 ∧
    (102 : ℚ) ≠ 100 + 2 ^ (min (1 - 1) 7 : ℕ) ∧
    strContainsSub "error: http/429" "429" = true ∧
    is_rate_limited_message "error: http/429" = false ∧
    (note_route_failure { } "error: http/429" 100).route_backoff_attempts = 0 := by
  refine ⟨by decide, by decide, ?_, by norm_num, by decide, by decide, by decide⟩
  have h := (note_route_failure_rate_limited { } "429 error" 100 (by decide)
    (by decide)).2
  have hn : (max (min (2 * 2 ^ min ({ } : AppState).route_backoff_attempts 7) 300)
      ((parse_retry_after_hint "429 error").getD 0) : ℕ) = 2 := by decide
  rw [h, hn]
  norm_num

/-- Claim C1, amended: for every rate-limit-shaped failure message — one
containing a space-adjacent `429`, `too many requests`, or `rate limit`,
case-insensitively — `noteFailure` increments the consecutive-failure counter
from `f-1` to `f` and sets the backoff deadline to
`now + max(serverHintSeconds, 2·2^(min(f-1,7)) seconds capped at 300 s)`, where
`serverHintSeconds` is parsed from a `retry-after=<n>s` token (0 if absent);
three consecutive such failures (without server hints, at non-decreasing
times, below the exponent cap) produce strictly increasing deadlines, and any
successful `applyResults` resets the failure counter to zero and clears the
deadline. -/
theorem route_backoff_amended :
    (∀ (s : AppState) (msg : String) (now : ℚ),
      is_rate_limited_message msg = true →
      s.route_backoff_attempts < 4294967295 →
      (note_route_failure s msg now).route_backoff_attempts =
        s.route_backoff_attempts + 1 ∧
      (note_route_failure s msg now).route_backoff_until =
        some (now + ((max (min (2 * 2 ^ min s.route_backoff_attempts 7) 300)
          ((parse_retry_after_hint msg).getD 0) : ℕ) : ℚ))) ∧
    (∀ (s : AppState) (m1 m2 m3 : String) (n1 n2 n3 : ℚ),
      is_rate_limited_message m1 = true →
      is_rate_limited_message m2 = true →
      is_rate_limited_message m3 = true →
      parse_retry_after_hint m1 = none →
      parse_retry_after_hint m2 = none →
      parse_retry_after_hint m3 = none →
      n1 ≤ n2 → n2 ≤ n3 →
      s.route_backoff_attempts + 3 ≤ 8 →
      ∃ u1 u2 u3 : ℚ,
        (note_route_failure s m1 n1).route_backoff_until = some u1 ∧
        (note_route_failure (note_route_failure s m1 n1) m2 n2).route_backoff_until =
          some u2 ∧
        (note_route_failure (note_route_failure (note_route_failure s m1 n1) m2 n2)
          m3 n3).route_backoff_until = some u3 ∧
        u1 < u2 ∧ u2 < u3) ∧
    (∀ (s : AppState) (results : List RouteResult) (now : ℚ),
      (apply_routes s results now).route_backoff_attempts = 0 ∧
      (apply_routes s results now).route_backoff_until = none) := by
  refine ⟨?_, ?_, ?_⟩
  · intro s msg now h hcap
    exact note_route_failure_rate_limited s msg now h hcap
  · intro s m1 m2 m3 n1 n2 n3 h1 h2 h3 p1 p2 p3 hn12 hn23 hcap
    exact note_route_failure_growth s m1 m2 m3 n1 n2 n3 h1 h2 h3 p1 p2 p3 hn12 hn23 hcap
  · intro s results now
    exact apply_routes_resets s results now

/-- Witness for the amended C1 at concrete inputs. -/
theorem route_backoff_amended_witness :
    ((note_route_failure { } "rate limit" 100).route_backoff_attempts = 0 + 1 ∧
      (note_route_failure { } "rate limit" 100).route_backoff_until =
        some (100 + ((max (min (2 * 2 ^ min 0 7) 300)
          ((parse_retry_after_hint "rate limit").getD 0) : ℕ) : ℚ))) ∧
    (∃ u1 u2 u3 : ℚ,
      (note_route_failure { } "429 error" 0).route_backoff_until = some u1 ∧
      (note_route_failure (note_route_failure { } "429 error" 0) "429 error"
        10).route_backoff_until = some u2 ∧
      (note_route_failure (note_route_failure (note_route_failure { } "429 error" 0)
        "429 error" 10) "429 error" 20).route_backoff_until = some u3 ∧
      u1 < u2 ∧ u2 < u3) ∧
    ((apply_routes { } [] 0).route_backoff_attempts = 0 ∧
      (apply_routes { } [] 0).route_backoff_until = none) := by
  refine ⟨?_, ?_, ?_⟩
  · exact route_backoff_amended.1 { } "rate limit" 100 (by decide) (by decide)
  · exact route_backoff_amended.2.1 { } "429 error" "429 error" "429 error" 0 10 20
      (by decide) (by decide) (by decide) (by decide) (by decide) (by decide)
      (by norm_num) (by norm_num) (by decide)
  · exact route_backoff_amended.2.2 { } [] 0

/-! ### Claim C6 -/

/-- Claim C6: for every positive established rate EMA, once the silence since
the last real counter advance exceeds the hold duration
(`max(window, 2 s)`), each application of the decay step
(`ema = ema × exp(-Δt/τ)`, `τ = max(4×window, 3 s)`) strictly decreases the
rate estimate while keeping it strictly positive — so successive applications
keep strictly decreasing it and it never becomes negative.  The `f64`
exponential is abstracted as `expApprox`; the hypotheses state exactly the
facts `0 < exp x < 1` that hold for the true exponential at the used
(negative) argument. -/
theorem rate_decay_strict_decrease :
    ∀ (expApprox : ℚ → ℚ) (s : AppState) (nowTime prev dt tau : ℚ),
      s.msg_rate_ema = some prev →
      0 < prev →
      dt = (durationSince nowTime (s.last_msg_time.getD nowTime)).getD 0 →
      tau = max (s.msg_rate_window * 4) 3 →
      max s.msg_rate_window 2 < dt →
      0 < expApprox (-dt / tau) →
      expApprox (-dt / tau) < 1 →
      ∃ e, (apply_rate_decay expApprox s nowTime).msg_rate_ema = some e ∧
        0 < e ∧ e < prev := by
  intro expApprox s nowTime prev dt tau hema hprev hdt htau hhold hpos hlt1
  unfold apply_rate_decay
  rw [hema]
  simp only []
  rw [← hdt, ← htau]
  have hnot : ¬ (dt ≤ max s.msg_rate_window 2) := by linarith
  rw [if_neg hnot]
  refine ⟨max (prev * expApprox (-dt / tau)) 0, rfl, ?_, ?_⟩
  · have : 0 < prev * expApprox (-dt / tau) := mul_pos hprev hpos
    exact lt_max_of_lt_left this
  · have hmul : prev * expApprox (-dt / tau) < prev := by
      calc prev * expApprox (-dt / tau) < prev * 1 := by
            exact mul_lt_mul_of_pos_left hlt1 hprev
        _ = prev := mul_one prev
    have : max (prev * expApprox (-dt / tau)) 0 = prev * expApprox (-dt / tau) :=
      max_eq_left (le_of_lt (mul_pos hprev hpos))
    rw [this]
    exact hmul

/-- Witness for C6: window 2 s, EMA 5, silence 10 s, decay factor 1/2. -/
theorem rate_decay_strict_decrease_witness :
    ∃ e, (apply_rate_decay halfExp sDecay 10).msg_rate_ema = some e ∧
      0 < e ∧ e < 5 := by
  refine rate_decay_strict_decrease halfExp sDecay 10 5 10 8 rfl (by norm_num)
    ?_ ?_ ?_ ?_ ?_
  · show (10 : ℚ) = (durationSince 10 ((some (0:ℚ)).getD 10)).getD 0
    norm_num [durationSince]
  · show (8 : ℚ) = max ((2:ℚ) * 4) 3
    norm_num
  · show max (2:ℚ) 2 < 10
    norm_num
  · show (0:ℚ) < halfExp (-10 / 8)
    norm_num [halfExp]
  · show halfExp (-10 / 8) < 1
    norm_num [halfExp]

/-! ### Claim C2 -/

theorem update_rate_reset (expApprox : ℚ → ℚ) (s : AppState) (d : ApiResponse)
    (m0 m1 : ℕ) (t1 : ℚ)
    (hd : d.messages = some m1) (hlast : s.last_msg_total = some m0)
    (h : m1 < m0) (hwin0 : 0 ≤ s.msg_rate_window) :
    update_rate expApprox s d t1 =
      { s with
        msg_samples := [(t1, m1)]
        msg_rate_ema := none
        msg_rate_display := none
        last_msg_total := some m1
        last_msg_time := some t1 } := by
  have hne : (m1 == m0) = false := by
    simp [Nat.ne_of_lt h]
  have hds : durationSince t1 t1 = some 0 := by
    simp [durationSince]
  have hps : pruneSamples s.msg_rate_window t1 [(t1, m1)] = [(t1, m1)] := by
    unfold pruneSamples
    rw [hds]
    simp only [gt_iff_lt]
    rw [if_neg (not_lt.mpr hwin0)]
  unfold update_rate
  rw [hd]
  simp only [hlast, if_pos h, hne, Bool.false_eq_true, if_false]
  simp only [List.nil_append, hps, List.reverse_cons, List.reverse_nil,
    List.head?_cons, List.getLast?_singleton, hds]
  simp only [Nat.sub_self, Nat.cast_zero, zero_div]
  rw [if_pos (le_refl (0:ℚ))]
  unfold apply_rate_decay
  rfl

theorem update_rate_advance (expApprox : ℚ → ℚ) (s : AppState) (d : ApiResponse)
    (m1 m2 : ℕ) (t1 t2 : ℚ)
    (hd : d.messages = some m2)
    (hlast : s.last_msg_total = some m1)
    (hsamp : s.msg_samples = [(t1, m1)])
    (hema : s.msg_rate_ema = none)
    (hm : m1 < m2) (ht : t1 ≤ t2) (hwin : t2 - t1 ≤ s.msg_rate_window)
    (hmin : 0 < s.msg_rate_min_secs) :
    ∃ r : ℚ, (update_rate expApprox s d t2).msg_rate_ema = some r ∧ 0 < r := by
  have hnl : ¬ (m2 < m1) := by omega
  have hbe : (m2 == m1) = false := by
    simp
    omega
  have hds : durationSince t2 t1 = some (t2 - t1) := by
    simp [durationSince, ht]
  have hps : pruneSamples s.msg_rate_window t2 [(t1, m1), (t2, m2)] =
      [(t1, m1), (t2, m2)] := by
    unfold pruneSamples
    rw [hds]
    simp only [gt_iff_lt]
    rw [if_neg (not_lt.mpr hwin)]
  have hdm : (0:ℚ) < ((m2 - m1 : ℕ) : ℚ) := by
    have : 0 < m2 - m1 := by omega
    exact_mod_cast this
  have hsS : (0:ℚ) < (t2 - t1) ⊔ (s.msg_rate_min_secs * (1 / 2)) :=
    lt_sup_of_lt_right (by linarith)
  have hsW : (0:ℚ) < (t2 - t1) ⊔ s.msg_rate_min_secs :=
    lt_sup_of_lt_right hmin
  have hblend : (0:ℚ) <
      7 / 10 * (((m2 - m1 : ℕ) : ℚ) / ((t2 - t1) ⊔ (s.msg_rate_min_secs * (1 / 2)))) +
      3 / 10 * (((m2 - m1 : ℕ) : ℚ) / ((t2 - t1) ⊔ s.msg_rate_min_secs)) := by
    have h1 : (0:ℚ) < ((m2 - m1 : ℕ) : ℚ) / ((t2 - t1) ⊔ (s.msg_rate_min_secs * (1 / 2))) :=
      div_pos hdm hsS
    have h2 : (0:ℚ) < ((m2 - m1 : ℕ) : ℚ) / ((t2 - t1) ⊔ s.msg_rate_min_secs) :=
      div_pos hdm hsW
    positivity
  unfold update_rate
  rw [hd]
  simp only [hlast, if_neg hnl, hbe, Bool.false_eq_true, if_false]
  simp only [hsamp, List.cons_append, List.nil_append, hps, List.reverse_cons,
    List.reverse_nil, List.nil_append, List.head?_cons, hds]
  simp only [List.getLast?_cons_cons, List.getLast?_singleton, hds]
  rw [if_neg (not_le.mpr hblend)]
  simp only [hema]
  exact ⟨_, rfl, hblend⟩

/-- Claim C2: with an established global EMA, a snapshot whose cumulative
counter is lower than the last seen one clears the accumulated sample history
(only the reset sample itself remains), the EMA and the display value; the
next snapshot with an advancing counter (within the window) then seeds a fresh
rate that is non-negative (in fact positive) — never a negative or garbage
value. -/
theorem rate_counter_reset_safe :
    ∀ (expApprox : ℚ → ℚ) (s : AppState) (e : ℚ) (m0 m1 m2 : ℕ) (t1 t2 : ℚ)
      (d1 d2 : ApiResponse),
      s.msg_rate_ema = some e →
      s.last_msg_total = some m0 →
      d1.messages = some m1 → m1 < m0 →
      d2.messages = some m2 → m1 < m2 →
      t1 ≤ t2 → t2 - t1 ≤ s.msg_rate_window → 0 ≤ s.msg_rate_window →
      0 < s.msg_rate_min_secs →
      (update_rate expApprox s d1 t1).msg_rate_ema = none ∧
      (update_rate expApprox s d1 t1).msg_rate_display = none ∧
      (update_rate expApprox s d1 t1).msg_samples = [(t1, m1)] ∧
      ∃ r, (update_rate expApprox (update_rate expApprox s d1 t1) d2 t2).msg_rate_ema =
          some r ∧ 0 ≤ r := by
  intro expApprox s e m0 m1 m2 t1 t2 d1 d2 hema hlast hd1 hm1 hd2 hm2 ht hwin
    hwin0 hmin
  have hreset := update_rate_reset expApprox s d1 m0 m1 t1 hd1 hlast hm1 hwin0
  have h1 : (update_rate expApprox s d1 t1).last_msg_total = some m1 := by
    rw [hreset]
  have h2 : (update_rate expApprox s d1 t1).msg_samples = [(t1, m1)] := by
    rw [hreset]
  have h3 : (update_rate expApprox s d1 t1).msg_rate_ema = none := by
    rw [hreset]
  have h4 : (update_rate expApprox s d1 t1).msg_rate_window = s.msg_rate_window := by
    rw [hreset]
  have h5 : (update_rate expApprox s d1 t1).msg_rate_min_secs =
      s.msg_rate_min_secs := by
    rw [hreset]
  refine ⟨h3, by rw [hreset], h2, ?_⟩
  obtain ⟨r, hr, hrpos⟩ := update_rate_advance expApprox
    (update_rate expApprox s d1 t1) d2 m1 m2 t1 t2 hd2 h1 h2 h3 hm2 ht
    (by rw [h4]; exact hwin) (by rw [h5]; exact hmin)
  exact ⟨r, hr, le_of_lt hrpos⟩

/-- Witness for C2: counter 1000 → 100 (reset) → 150 (reseed) one second
apart. -/
theorem rate_counter_reset_safe_witness :
    (update_rate oneExp sRate { messages := some 100 } 1).msg_rate_ema = none ∧
    (update_rate oneExp sRate { messages := some 100 } 1).msg_rate_display = none ∧
    (update_rate oneExp sRate { messages := some 100 } 1).msg_samples = [(1, 100)] ∧
    ∃ r, (update_rate oneExp (update_rate oneExp sRate { messages := some 100 } 1)
        { messages := some 150 } 2).msg_rate_ema = some r ∧ 0 ≤ r :=
  rate_counter_reset_safe oneExp sRate 5 1000 100 150 1 2
    { messages := some 100 } { messages := some 150 }
    rfl rfl rfl (by omega) rfl (by omega) (by norm_num) (by norm_num [sRate])
    (by norm_num [sRate]) (by norm_num [sRate])

/-! ### Claim C4 -/

theorem fill_string_fills (tgt src : Option String) :
    fillsStringSpec tgt src (fill_string tgt src) := by
  refine ⟨?_, ?_, ?_⟩
  · intro hb
    unfold fill_string
    cases tgt with
    | none => simp [strBlank] at hb
    | some s =>
      simp only [strBlank] at hb
      simp [hb]
  · intro hb hs
    unfold fill_string
    cases src with
    | none => simp [strBlank] at hs
    | some v =>
      simp only [strBlank] at hs
      cases tgt with
      | none => exact ⟨v, rfl, by simp [hs]⟩
      | some s =>
        simp only [strBlank] at hb
        exact ⟨v, rfl, by simp [hb, hs]⟩
  · intro hb hs
    unfold fill_string
    cases tgt with
    | none =>
      cases src with
      | none => simp
      | some v =>
        simp only [strBlank] at hs
        simp [hs]
    | some s =>
      simp only [strBlank] at hb
      cases src with
      | none => simp [hb]
      | some v =>
        simp only [strBlank] at hs
        simp [hb, hs]

theorem fill_copy_fills {α : Type} (tgt src : Option α) :
    fillsCopySpec tgt src (fill_copy tgt src) := by
  constructor
  · intro h
    rw [h]
    rfl
  · intro v h
    rw [h]
    rfl

theorem mergeAircraft_fills (ac prevAc : Aircraft) :
    mergeFillSpec ac prevAc (mergeAircraft ac prevAc) :=
  ⟨fill_string_fills ac.hex prevAc.hex,
   fill_string_fills ac.kind prevAc.kind,
   fill_string_fills ac.flight prevAc.flight,
   fill_string_fills ac.r prevAc.r,
   fill_string_fills ac.t prevAc.t,
   fill_string_fills ac.desc prevAc.desc,
   fill_string_fills ac.own_op prevAc.own_op,
   fill_string_fills ac.year prevAc.year,
   fill_string_fills ac.category prevAc.category,
   fill_string_fills ac.sil_type prevAc.sil_type,
   fill_copy_fills ac.alt_baro prevAc.alt_baro,
   fill_copy_fills ac.alt_geom prevAc.alt_geom,
   fill_copy_fills ac.gs prevAc.gs,
   fill_copy_fills ac.track prevAc.track,
   fill_copy_fills ac.baro_rate prevAc.baro_rate,
   fill_copy_fills ac.nav_qnh prevAc.nav_qnh,
   fill_copy_fills ac.nav_altitude_mcp prevAc.nav_altitude_mcp,
   fill_copy_fills ac.lat prevAc.lat,
   fill_copy_fills ac.lon prevAc.lon,
   fill_copy_fills ac.nic prevAc.nic,
   fill_copy_fills ac.rc prevAc.rc,
   fill_copy_fills ac.seen_pos prevAc.seen_pos,
   fill_copy_fills ac.version prevAc.version,
   fill_copy_fills ac.nic_baro prevAc.nic_baro,
   fill_copy_fills ac.nac_p prevAc.nac_p,
   fill_copy_fills ac.nac_v prevAc.nac_v,
   fill_copy_fills ac.sil prevAc.sil,
   fill_copy_fills ac.alert prevAc.alert,
   fill_copy_fills ac.spi prevAc.spi,
   fill_copy_fills ac.messages prevAc.messages,
   fill_copy_fills ac.seen prevAc.seen,
   fill_copy_fills ac.rssi prevAc.rssi⟩

/-- Claim C4: with merge smoothing on, publishing merges the latest raw
snapshot with the previous display snapshot: for every aircraft of the new
snapshot whose identity key maps to a previous aircraft, every null-or-blank
string field and every null numeric field is filled from the previous value
and no non-null, non-blank field is overwritten; the absent top-level source
timestamp and message counter are filled the same way. -/
theorem snapshot_merge_fill_forward :
    (∀ target prev : ApiResponse,
      fillsCopySpec target.now prev.now (merge_api_response target prev).now ∧
      fillsCopySpec target.messages prev.messages
        (merge_api_response target prev).messages ∧
      ∀ (i : ℕ) (ac : Aircraft) (key : String) (pac : Aircraft),
        target.aircraft[i]? = some ac →
        aircraftKey ac = some key →
        alFind key (prevAircraftMap prev.aircraft) = some pac →
        ∃ out, (merge_api_response target prev).aircraft[i]? = some out ∧
          mergeFillSpec ac pac out) ∧
    (∀ s : AppState, s.smooth_merge = true →
      (swap_snapshot s).data = merge_api_response s.raw_data s.data) := by
  constructor
  · intro target prev
    refine ⟨?_, ?_, ?_⟩
    · constructor
      · intro h
        simp [merge_api_response, h]
      · intro v h
        simp [merge_api_response, h]
    · constructor
      · intro h
        simp [merge_api_response, h]
      · intro v h
        simp [merge_api_response, h]
    · intro i ac key pac hget hkey hfind
      refine ⟨mergeAircraft ac pac, ?_, mergeAircraft_fills ac pac⟩
      show (target.aircraft.map _)[i]? = _
      rw [List.getElem?_map, hget]
      simp [hkey, hfind]
  · intro s h
    unfold swap_snapshot
    rw [h]
    simp

/-- Witness for C4: previous registration `N123`, new registration absent. -/
theorem snapshot_merge_fill_forward_witness :
    (∃ out, (merge_api_response tMerge pMerge).aircraft[0]? = some out ∧
      mergeFillSpec newRegAc prevRegAc out) ∧
    (merge_api_response tMerge pMerge).aircraft.map (fun a => a.r) =
      [some "N123"] ∧
    (merge_api_response tMerge pMerge).messages = some 50 := by
  refine ⟨?_, by decide, by decide⟩
  exact (snapshot_merge_fill_forward.1 tMerge pMerge).2.2 0 newRegAc "hex:ac6668"
    prevRegAc (by decide) (by decide) (by decide)

/-! ### Claim C9 -/

theorem alFind_singleton {α : Type} (k k0 : String) (v : α) (w : α)
    (h : alFind k [(k0, v)] = some w) : w = v := by
  unfold alFind at h
  cases hb : (k0 == k) with
  | true =>
    simp only [List.find?, hb, Option.map_some] at h
    exact (Option.some_injective _ h).symm
  | false =>
    simp only [List.find?, hb] at h
    cases h

theorem updateTrailsStep_dedup (maxLen : ℕ) (now : ℚ)
    (trails : List (String × List TrailPoint)) (ac : Aircraft)
    (hex : String) (lat lon : ℚ) (entry : List TrailPoint) (lastPt : TrailPoint)
    (hhex : ac.hex = some hex) (hlat : ac.lat = some lat) (hlon : ac.lon = some lon)
    (hfind : alFind (normalize_hex hex) trails = some entry)
    (hlast : entry.getLast? = some lastPt)
    (h1 : |lastPt.lat - lat| < 1 / 100000) (h2 : |lastPt.lon - lon| < 1 / 100000) :
    updateTrailsStep maxLen now trails ac = trails := by
  unfold updateTrailsStep
  rw [hhex, hlat, hlon]
  simp only [hfind, Option.getD_some, hlast]
  have hd : (decide (|lastPt.lat - lat| < 1 / 100000) &&
      decide (|lastPt.lon - lon| < 1 / 100000)) = true := by
    simp only [Bool.and_eq_true, decide_eq_true_eq]
    exact ⟨h1, h2⟩
  simp only [hd, if_true]

theorem updateTrailsStep_cap (maxLen : ℕ) (now : ℚ)
    (trails : List (String × List TrailPoint)) (ac : Aircraft)
    (hex : String) (lat lon : ℚ) (entry : List TrailPoint)
    (hhex : ac.hex = some hex) (hlat : ac.lat = some lat) (hlon : ac.lon = some lon)
    (hfind : alFind (normalize_hex hex) trails = some entry)
    (hnodup : ∀ lastPt, entry.getLast? = some lastPt →
      ¬ (|lastPt.lat - lat| < 1 / 100000 ∧ |lastPt.lon - lon| < 1 / 100000))
    (hfull : maxLen ≤ entry.length) :
    alFind (normalize_hex hex) (updateTrailsStep maxLen now trails ac) =
      some ((entry ++ [(⟨lat, lon, now⟩ : TrailPoint)]).drop
        (entry.length + 1 - maxLen)) ∧
    ((entry ++ [(⟨lat, lon, now⟩ : TrailPoint)]).drop
        (entry.length + 1 - maxLen)).length = maxLen := by
  have hdup : (match entry.getLast? with
      | some last => |last.lat - lat| < 1 / 100000 && |last.lon - lon| < 1 / 100000
      | none => false) = false := by
    cases hl : entry.getLast? with
    | none => rfl
    | some lastPt =>
      have := hnodup lastPt hl
      simp only []
      rw [Bool.and_eq_false_iff]
      by_cases ha : |lastPt.lat - lat| < 1 / 100000
      · right
        simp only [decide_eq_false_iff_not]
        intro hb
        exact this ⟨ha, hb⟩
      · left
        simp only [decide_eq_false_iff_not]
        exact ha
  have hlen : (entry ++ [(⟨lat, lon, now⟩ : TrailPoint)]).length =
      entry.length + 1 := by
    simp
  constructor
  · unfold updateTrailsStep
    rw [hhex, hlat, hlon]
    simp only [hfind, Option.getD_some, hdup, Bool.false_eq_true, if_false]
    rw [hlen]
    have hgt : entry.length + 1 > maxLen := by omega
    rw [if_pos hgt]
    exact alFind_insert_self _ _ _
  · rw [List.length_drop, hlen]
    omega

theorem updateTrailsStep_bound (maxLen : ℕ) (now : ℚ)
    (trails : List (String × List TrailPoint)) (ac : Aircraft)
    (h : ∀ k l, alFind k trails = some l → l.length ≤ maxLen) :
    ∀ k l, alFind k (updateTrailsStep maxLen now trails ac) = some l →
      l.length ≤ maxLen := by
  intro k l hfind
  unfold updateTrailsStep at hfind
  cases hhex : ac.hex with
  | none =>
    rw [hhex] at hfind
    exact h k l hfind
  | some hex =>
    cases hlat : ac.lat with
    | none =>
      rw [hhex, hlat] at hfind
      exact h k l hfind
    | some lat =>
      cases hlon : ac.lon with
      | none =>
        rw [hhex, hlat, hlon] at hfind
        exact h k l hfind
      | some lon =>
        rw [hhex, hlat, hlon] at hfind
        simp only [] at hfind
        split at hfind
        · exact h k l hfind
        · set entry := (alFind (normalize_hex hex) trails).getD [] with hentry
          set appended := entry ++ [{ lat := lat, lon := lon, atTime := now }]
            with happ
          by_cases hk : k = normalize_hex hex
          · subst hk
            rw [alFind_insert_self] at hfind
            have hl : (if appended.length > maxLen then
                List.drop (appended.length - maxLen) appended else appended) = l :=
              Option.some_injective _ hfind
            have hal : appended.length = entry.length + 1 := by
              simp [happ]
            by_cases hbig : appended.length > maxLen
            · rw [if_pos hbig] at hl
              rw [← hl, List.length_drop]
              omega
            · rw [if_neg hbig] at hl
              rw [← hl]
              omega
          · rw [alFind_insert_ne _ _ _ _ hk] at hfind
            exact h k l hfind

theorem update_trails_bound (s : AppState) (d : ApiResponse) (now : ℚ)
    (h : ∀ k l, alFind k s.trail_points = some l → l.length ≤ max s.trail_len 1) :
    ∀ k l, alFind k (update_trails s d now).trail_points = some l →
      l.length ≤ max s.trail_len 1 := by
  unfold update_trails
  simp only []
  have hgen : ∀ (l : List Aircraft) (tp : List (String × List TrailPoint)),
      (∀ k w, alFind k tp = some w → w.length ≤ max s.trail_len 1) →
      ∀ k w, alFind k (l.foldl (updateTrailsStep (max s.trail_len 1) now) tp) =
        some w → w.length ≤ max s.trail_len 1 := by
    intro l
    induction l with
    | nil => intro tp htp; exact htp
    | cons ac rest ih =>
      intro tp htp
      simp only [List.foldl_cons]
      exact ih (updateTrailsStep (max s.trail_len 1) now tp ac)
        (updateTrailsStep_bound (max s.trail_len 1) now tp ac htp)
  exact hgen d.aircraft s.trail_points h

/-- Claim C9: for every identity key the trail is kept at length at most the
configured maximum (treated as at least 1): a near-duplicate point (within
1e-5 degrees in both axes of the last stored point) is not appended and leaves
the trail map unchanged; appending beyond the maximum drops points from the
front so that exactly the maximum most-recent points remain, in order; and the
whole per-snapshot pass preserves the length bound for every key. -/
theorem trail_cap_dedup :
    (∀ (maxLen : ℕ) (now : ℚ) (trails : List (String × List TrailPoint))
        (ac : Aircraft) (hex : String) (lat lon : ℚ) (entry : List TrailPoint)
        (lastPt : TrailPoint),
      ac.hex = some hex → ac.lat = some lat → ac.lon = some lon →
      alFind (normalize_hex hex) trails = some entry →
      entry.getLast? = some lastPt →
      |lastPt.lat - lat| < 1 / 100000 → |lastPt.lon - lon| < 1 / 100000 →
      updateTrailsStep maxLen now trails ac = trails) ∧
    (∀ (maxLen : ℕ) (now : ℚ) (trails : List (String × List TrailPoint))
        (ac : Aircraft) (hex : String) (lat lon : ℚ) (entry : List TrailPoint),
      ac.hex = some hex → ac.lat = some lat → ac.lon = some lon →
      alFind (normalize_hex hex) trails = some entry →
      (∀ lastPt, entry.getLast? = some lastPt →
        ¬ (|lastPt.lat - lat| < 1 / 100000 ∧ |lastPt.lon - lon| < 1 / 100000)) →
      maxLen ≤ entry.length →
      alFind (normalize_hex hex) (updateTrailsStep maxLen now trails ac) =
        some ((entry ++ [(⟨lat, lon, now⟩ : TrailPoint)]).drop
          (entry.length + 1 - maxLen)) ∧
      ((entry ++ [(⟨lat, lon, now⟩ : TrailPoint)]).drop
          (entry.length + 1 - maxLen)).length = maxLen) ∧
    (∀ (s : AppState) (d : ApiResponse) (now : ℚ),
      (∀ k l, alFind k s.trail_points = some l → l.length ≤ max s.trail_len 1) →
      ∀ k l, alFind k (update_trails s d now).trail_points = some l →
        l.length ≤ max s.trail_len 1) := by
  refine ⟨?_, ?_, ?_⟩
  · intro maxLen now trails ac hex lat lon entry lastPt hhex hlat hlon hfind
      hlast h1 h2
    exact updateTrailsStep_dedup maxLen now trails ac hex lat lon entry lastPt
      hhex hlat hlon hfind hlast h1 h2
  · intro maxLen now trails ac hex lat lon entry hhex hlat hlon hfind hnodup hfull
    exact updateTrailsStep_cap maxLen now trails ac hex lat lon entry hhex hlat
      hlon hfind hnodup hfull
  · intro s d now h
    exact update_trails_bound s d now h

/-- Witness for C9 at a concrete three-point trail with cap 3. -/
theorem trail_cap_dedup_witness :
    updateTrailsStep 3 5 trailsW acTrailDup = trailsW ∧
    (alFind (normalize_hex "ac6668") (updateTrailsStep 3 5 trailsW acTrail) =
      some (([(⟨26, -80, 0⟩ : TrailPoint), ⟨265 / 10, -80, 1⟩, ⟨27, -80, 2⟩] ++
        [(⟨28, -80, 5⟩ : TrailPoint)]).drop
          (([(⟨26, -80, 0⟩ : TrailPoint), ⟨265 / 10, -80, 1⟩,
            ⟨27, -80, 2⟩] : List TrailPoint).length + 1 - 3)) ∧
      (([(⟨26, -80, 0⟩ : TrailPoint), ⟨265 / 10, -80, 1⟩, ⟨27, -80, 2⟩] ++
        [(⟨28, -80, 5⟩ : TrailPoint)]).drop
          (([(⟨26, -80, 0⟩ : TrailPoint), ⟨265 / 10, -80, 1⟩,
            ⟨27, -80, 2⟩] : List TrailPoint).length + 1 - 3)).length = 3) ∧
    (∀ k l, alFind k (update_trails sTrail dTrail 5).trail_points = some l →
      l.length ≤ max sTrail.trail_len 1) := by
  refine ⟨?_, ?_, ?_⟩
  · exact trail_cap_dedup.1 3 5 trailsW acTrailDup "ac6668" 27 (-80)
      [⟨26, -80, 0⟩, ⟨265 / 10, -80, 1⟩, ⟨27, -80, 2⟩] ⟨27, -80, 2⟩
      rfl rfl rfl rfl rfl (by norm_num) (by norm_num)
  · exact trail_cap_dedup.2.1 3 5 trailsW acTrail "ac6668" 28 (-80)
      [⟨26, -80, 0⟩, ⟨265 / 10, -80, 1⟩, ⟨27, -80, 2⟩]
      rfl rfl rfl rfl
      (by
        intro lastPt h
        simp only [List.getLast?_cons_cons, List.getLast?_singleton] at h
        have hp : lastPt = (⟨27, -80, 2⟩ : TrailPoint) :=
          (Option.some_injective _ h).symm
        subst hp
        intro hcon
        have := hcon.1
        norm_num at this)
      (by norm_num)
  · exact trail_cap_dedup.2.2 sTrail dTrail 5
      (by
        intro k l h
        have hv := alFind_singleton k "ac6668"
          [(⟨26, -80, 0⟩ : TrailPoint), ⟨265 / 10, -80, 1⟩, ⟨27, -80, 2⟩] l h
        subst hv
        norm_num [sTrail])

/-! ### Claim C5 -/

theorem watchFold_some (ac : Aircraft) (route : Option RouteInfo) :
    ∀ (l : List WatchEntry) (b : WatchEntry),
      ∃ e, (l.foldl (watchBestStep ac route) (some b, b.priorityD)) =
          (some e, e.priorityD) ∧
        (e = b ∨ (e ∈ l ∧ (e.is_enabled && watch_entry_matches e ac route) = true ∧
          b.priorityD < e.priorityD)) ∧
        (∀ x ∈ l, (x.is_enabled && watch_entry_matches x ac route) = true →
          x.priorityD ≤ e.priorityD) ∧
        (e = b ∨ ∃ l1 l2, l = l1 ++ e :: l2 ∧
          ∀ x ∈ l1, (x.is_enabled && watch_entry_matches x ac route) = true →
            x.priorityD < e.priorityD) := by
  intro l
  induction l with
  | nil =>
    intro b
    exact ⟨b, rfl, Or.inl rfl, by simp, Or.inl rfl⟩
  | cons y rest ih =>
    intro b
    by_cases hy : (y.is_enabled && watch_entry_matches y ac route) = true
    · have hyen : y.is_enabled = true := (Bool.and_eq_true_iff.mp hy).1
      have hym : watch_entry_matches y ac route = true := (Bool.and_eq_true_iff.mp hy).2
      by_cases hgt : y.priorityD > b.priorityD
      · have hstep : watchBestStep ac route (some b, b.priorityD) y =
            (some y, y.priorityD) := by
          unfold watchBestStep
          simp [hyen, hym, hgt]
        rw [List.foldl_cons, hstep]
        obtain ⟨e, hres, hchain, hmax, hdec⟩ := ih y
        refine ⟨e, hres, ?_, ?_, ?_⟩
        · rcases hchain with he | ⟨hmem, hm, hlt⟩
          · refine Or.inr ⟨?_, ?_, ?_⟩
            · rw [he]; exact List.mem_cons_self y rest
            · rw [he]; exact hy
            · rw [he]; exact hgt
          · exact Or.inr ⟨List.mem_cons_of_mem y hmem, hm, lt_trans hgt hlt⟩
        · intro x hx hxm
          rcases List.mem_cons.mp hx with hx1 | hx2
          · subst hx1
            rcases hchain with he | ⟨_, _, hlt⟩
            · rw [← he]
            · exact le_of_lt hlt
          · exact hmax x hx2 hxm
        · rcases hchain with he | ⟨hmem, hm, hlt⟩
          · refine Or.inr ⟨[], rest, ?_, by simp⟩
            rw [he]
            rfl
          · rcases hdec with he2 | ⟨l1, l2, hsplit, hstrict⟩
            · rw [he2] at hlt
              exact absurd hlt (lt_irrefl _)
            · refine Or.inr ⟨y :: l1, l2, ?_, ?_⟩
              · rw [hsplit]
                rfl
              · intro x hx hxm
                rcases List.mem_cons.mp hx with hx1 | hx2
                · subst hx1
                  exact hlt
                · exact hstrict x hx2 hxm
      · have hstep : watchBestStep ac route (some b, b.priorityD) y =
            (some b, b.priorityD) := by
          unfold watchBestStep
          simp [hyen, hym, hgt]
        rw [List.foldl_cons, hstep]
        obtain ⟨e, hres, hchain, hmax, hdec⟩ := ih b
        refine ⟨e, hres, ?_, ?_, ?_⟩
        · rcases hchain with he | ⟨hmem, hm, hlt⟩
          · exact Or.inl he
          · exact Or.inr ⟨List.mem_cons_of_mem y hmem, hm, hlt⟩
        · intro x hx hxm
          rcases List.mem_cons.mp hx with hx1 | hx2
          · subst hx1
            have hyb : x.priorityD ≤ b.priorityD := not_lt.mp hgt
            rcases hchain with he | ⟨_, _, hlt⟩
            · rw [← he] at hyb
              exact hyb
            · exact le_trans hyb (le_of_lt hlt)
          · exact hmax x hx2 hxm
        · rcases hchain with he | ⟨hmem, hm, hlt⟩
          · exact Or.inl he
          · rcases hdec with he2 | ⟨l1, l2, hsplit, hstrict⟩
            · rw [he2] at hlt
              exact absurd hlt (lt_irrefl _)
            · refine Or.inr ⟨y :: l1, l2, ?_, ?_⟩
              · rw [hsplit]
                rfl
              · intro x hx hxm
                rcases List.mem_cons.mp hx with hx1 | hx2
                · subst hx1
                  exact lt_of_le_of_lt (not_lt.mp hgt) hlt
                · exact hstrict x hx2 hxm
    · have hstep : watchBestStep ac route (some b, b.priorityD) y =
          (some b, b.priorityD) := by
        unfold watchBestStep
        rcases Bool.and_eq_false_iff.mp (Bool.eq_false_iff.mpr hy) with h1 | h2
        · simp [h1]
        · simp [h2]
      rw [List.foldl_cons, hstep]
      obtain ⟨e, hres, hchain, hmax, hdec⟩ := ih b
      refine ⟨e, hres, ?_, ?_, ?_⟩
      · rcases hchain with he | ⟨hmem, hm, hlt⟩
        · exact Or.inl he
        · exact Or.inr ⟨List.mem_cons_of_mem y hmem, hm, hlt⟩
      · intro x hx hxm
        rcases List.mem_cons.mp hx with hx1 | hx2
        · subst hx1
          exact absurd hxm hy
        · exact hmax x hx2 hxm
      · rcases hchain with he | ⟨hmem, hm, hlt⟩
        · exact Or.inl he
        · rcases hdec with he2 | ⟨l1, l2, hsplit, hstrict⟩
          · rw [he2] at hlt
            exact absurd hlt (lt_irrefl _)
          · refine Or.inr ⟨y :: l1, l2, ?_, ?_⟩
            · rw [hsplit]
              rfl
            · intro x hx hxm
              rcases List.mem_cons.mp hx with hx1 | hx2
              · subst hx1
                exact absurd hxm hy
              · exact hstrict x hx2 hxm

theorem watchFold_start (ac : Aircraft) (route : Option RouteInfo) :
    ∀ (l : List WatchEntry),
      (∃ x, x ∈ l ∧ (x.is_enabled && watch_entry_matches x ac route) = true) →
      ∃ e, (l.foldl (watchBestStep ac route) (none, -(2 ^ 63 : ℤ))).1 = some e ∧
        e ∈ l ∧ (e.is_enabled && watch_entry_matches e ac route) = true ∧
        (∀ x ∈ l, (x.is_enabled && watch_entry_matches x ac route) = true →
          x.priorityD ≤ e.priorityD) ∧
        ∃ l1 l2, l = l1 ++ e :: l2 ∧
          ∀ x ∈ l1, (x.is_enabled && watch_entry_matches x ac route) = true →
            x.priorityD < e.priorityD := by
  intro l
  induction l with
  | nil =>
    rintro ⟨x, hx, _⟩
    cases hx
  | cons y rest ih =>
    intro hex
    by_cases hy : (y.is_enabled && watch_entry_matches y ac route) = true
    · have hyen : y.is_enabled = true := (Bool.and_eq_true_iff.mp hy).1
      have hym : watch_entry_matches y ac route = true := (Bool.and_eq_true_iff.mp hy).2
      have hstep : watchBestStep ac route (none, -(2 ^ 63 : ℤ)) y =
          (some y, y.priorityD) := by
        unfold watchBestStep
        simp [hyen, hym]
      rw [List.foldl_cons, hstep]
      obtain ⟨e, hres, hchain, hmax, hdec⟩ := watchFold_some ac route rest y
      have hres1 : (rest.foldl (watchBestStep ac route) (some y, y.priorityD)).1 =
          some e := by
        rw [hres]
      refine ⟨e, hres1, ?_, ?_, ?_, ?_⟩
      · rcases hchain with he | ⟨hmem, _, _⟩
        · rw [he]; exact List.mem_cons_self y rest
        · exact List.mem_cons_of_mem y hmem
      · rcases hchain with he | ⟨_, hm, _⟩
        · rw [he]; exact hy
        · exact hm
      · intro x hx hxm
        rcases List.mem_cons.mp hx with hx1 | hx2
        · subst hx1
          rcases hchain with he | ⟨_, _, hlt⟩
          · rw [← he]
          · exact le_of_lt hlt
        · exact hmax x hx2 hxm
      · rcases hchain with he | ⟨hmem, hm, hlt⟩
        · refine ⟨[], rest, ?_, by simp⟩
          rw [he]
          rfl
        · rcases hdec with he2 | ⟨l1, l2, hsplit, hstrict⟩
          · rw [he2] at hlt
            exact absurd hlt (lt_irrefl _)
          · refine ⟨y :: l1, l2, ?_, ?_⟩
            · rw [hsplit]
              rfl
            · intro x hx hxm
              rcases List.mem_cons.mp hx with hx1 | hx2
              · subst hx1
                exact hlt
              · exact hstrict x hx2 hxm
    · have hstep : watchBestStep ac route (none, -(2 ^ 63 : ℤ)) y =
          (none, -(2 ^ 63 : ℤ)) := by
        unfold watchBestStep
        rcases Bool.and_eq_false_iff.mp (Bool.eq_false_iff.mpr hy) with h1 | h2
        · simp [h1]
        · simp [h2]
      rw [List.foldl_cons, hstep]
      have hex2 : ∃ x, x ∈ rest ∧
          (x.is_enabled && watch_entry_matches x ac route) = true := by
        obtain ⟨x, hx, hxm⟩ := hex
        rcases List.mem_cons.mp hx with hx1 | hx2
        · subst hx1
          exact absurd hxm hy
        · exact ⟨x, hx2, hxm⟩
      obtain ⟨e, hres, hmem, hm, hmax, l1, l2, hsplit, hstrict⟩ := ih hex2
      refine ⟨e, hres, List.mem_cons_of_mem y hmem, hm, ?_, ?_⟩
      · intro x hx hxm
        rcases List.mem_cons.mp hx with hx1 | hx2
        · subst hx1
          exact absurd hxm hy
        · exact hmax x hx2 hxm
      · refine ⟨y :: l1, l2, ?_, ?_⟩
        · rw [hsplit]
          rfl
        · intro x hx hxm
          rcases List.mem_cons.mp hx with hx1 | hx2
          · subst hx1
            exact absurd hxm hy
          · exact hstrict x hx2 hxm

/-- Claim C5: among the enabled watchlist entries whose rule matches the
aircraft, `watch_entry_for` returns one with the highest priority, and when
several matching enabled entries share that highest priority it returns the
first in insertion order (every matching enabled entry strictly before the
winner has strictly lower priority). -/
theorem watchlist_priority :
    ∀ (s : AppState) (ac : Aircraft) (e0 : WatchEntry),
      s.watchlist_enabled = true →
      e0 ∈ s.watchlist →
      e0.is_enabled = true →
      watch_entry_matches e0 ac (route_for s ac) = true →
      ∃ e, watch_entry_for s ac = some e ∧
        e ∈ s.watchlist ∧ e.is_enabled = true ∧
        watch_entry_matches e ac (route_for s ac) = true ∧
        (∀ x ∈ s.watchlist, x.is_enabled = true →
          watch_entry_matches x ac (route_for s ac) = true →
          x.priorityD ≤ e.priorityD) ∧
        ∃ l1 l2, s.watchlist = l1 ++ e :: l2 ∧
          ∀ x ∈ l1, x.is_enabled = true →
            watch_entry_matches x ac (route_for s ac) = true →
            x.priorityD < e.priorityD := by
  intro s ac e0 hen hmem he0en he0m
  have hex : ∃ x, x ∈ s.watchlist ∧
      (x.is_enabled && watch_entry_matches x ac (route_for s ac)) = true :=
    ⟨e0, hmem, by simp [he0en, he0m]⟩
  obtain ⟨e, hres, hmem2, hm2, hmax, l1, l2, hsplit, hstrict⟩ :=
    watchFold_start ac (route_for s ac) s.watchlist hex
  refine ⟨e, ?_, hmem2, (Bool.and_eq_true_iff.mp hm2).1,
    (Bool.and_eq_true_iff.mp hm2).2, ?_, ?_⟩
  · unfold watch_entry_for
    rw [hen]
    simpa using hres
  · intro x hx hxen hxm
    exact hmax x hx (by simp [hxen, hxm])
  · exact ⟨l1, l2, hsplit, fun x hx hxen hxm => hstrict x hx (by simp [hxen, hxm])⟩

/-- Witness for C5: two enabled rules both matching hex `ac6668` with
priorities 1 and 5 — the priority-5 rule is returned. -/
theorem watchlist_priority_witness :
    watch_entry_for sWatch acW = some entryP5 ∧
    (∃ e, watch_entry_for sWatch acW = some e ∧
      e ∈ sWatch.watchlist ∧ e.is_enabled = true ∧
      watch_entry_matches e acW (route_for sWatch acW) = true ∧
      (∀ x ∈ sWatch.watchlist, x.is_enabled = true →
        watch_entry_matches x acW (route_for sWatch acW) = true →
        x.priorityD ≤ e.priorityD) ∧
      ∃ l1 l2, sWatch.watchlist = l1 ++ e :: l2 ∧
        ∀ x ∈ l1, x.is_enabled = true →
          watch_entry_matches x acW (route_for sWatch acW) = true →
          x.priorityD < e.priorityD) :=
  ⟨by decide,
   watchlist_priority sWatch acW entryP1 rfl (by decide) (by decide) (by decide)⟩

/-! ### Claim C3 -/

theorem cooldown_le_maxAge (q : ℚ) (_h : 0 ≤ q) :
    q ≤ ((max (4 * ratSecs q) 60 : ℕ) : ℚ) := by
  by_cases hq : q ≤ 60
  · have h60 : ((60 : ℕ) : ℚ) ≤ ((max (4 * ratSecs q) 60 : ℕ) : ℚ) := by
      exact_mod_cast Nat.le_max_right (4 * ratSecs q) 60
    calc q ≤ 60 := hq
      _ = ((60 : ℕ) : ℚ) := by norm_num
      _ ≤ _ := h60
  · push_neg at hq
    set n := ratSecs q with hn
    have hfl : (60 : ℤ) ≤ q.floor := by
      rw [Rat.le_floor]
      push_cast
      linarith
    have hnn : (0 : ℤ) ≤ q.floor := by linarith
    have hcast : ((n : ℤ)) = q.floor := Int.toNat_of_nonneg hnn
    have hn60 : (60 : ℕ) ≤ n := by omega
    have hq1 : q < (n : ℚ) + 1 := by
      by_contra hcon
      push_neg at hcon
      have hc2 : ((q.floor + 1 : ℤ) : ℚ) ≤ q := by
        rw [← hcast]
        push_cast
        linarith
      have hstep : q.floor + 1 ≤ q.floor := Rat.le_floor.mpr hc2
      omega
    have hmaxl : ((4 * n : ℕ) : ℚ) ≤ ((max (4 * n) 60 : ℕ) : ℚ) := by
      exact_mod_cast Nat.le_max_left (4 * n) 60
    have h4 : q ≤ ((4 * n : ℕ) : ℚ) := by
      push_cast
      have hcn : (60 : ℚ) ≤ (n : ℚ) := by exact_mod_cast hn60
      linarith
    linarith

theorem notifyStep_spec (distanceMi : ℚ → ℚ → ℚ → ℚ → ℚ) (site : SiteLocation)
    (radius overpass cooldown now : ℚ) (recent : List (String × ℚ))
    (notifs : List Notification) (ac : Aircraft) (lat lon : ℚ) (key : String)
    (hlat : ac.lat = some lat) (hlon : ac.lon = some lon)
    (hdist : ¬ (distanceMi site.lat site.lon lat lon > radius))
    (hkey : aircraftKey ac = some key)
    (hmono : ∀ t, alFind key recent = some t → t ≤ now) :
    ((alFind key recent = none ∨
        (∃ t, alFind key recent = some t ∧ cooldown ≤ now - t)) →
      (notifyStep distanceMi site radius overpass cooldown now
          (recent, notifs) ac).1 = alInsert key now recent ∧
      ∃ msg, (notifyStep distanceMi site radius overpass cooldown now
          (recent, notifs) ac).2 = notifs ++ [{ message := msg, atTime := now }]) ∧
    ((∃ t, alFind key recent = some t ∧ now - t < cooldown) →
      notifyStep distanceMi site radius overpass cooldown now
        (recent, notifs) ac = (recent, notifs)) := by
  have hdistF : (distanceMi site.lat site.lon lat lon > radius) = False :=
    eq_false hdist
  unfold notifyStep
  simp only [hlat, hlon, hdistF, if_false, hkey]
  cases hfind : alFind key recent with
  | none =>
    simp only [hfind, Bool.not_true, Bool.false_eq_true, if_false]
    constructor
    · intro _
      exact ⟨by trivial, _, rfl⟩
    · rintro ⟨t, ht, _⟩
      cases ht
  | some t =>
    have hle : t ≤ now := hmono t hfind
    have hds : durationSince now t = some (now - t) := by
      simp [durationSince, hle]
    simp only [hfind, hds]
    by_cases hcool : now - t ≥ cooldown
    · have hdec : decide (now - t ≥ cooldown) = true := decide_eq_true hcool
      simp only [hdec, Bool.not_true, Bool.false_eq_true, if_false]
      constructor
      · intro _
        exact ⟨by trivial, _, rfl⟩
      · rintro ⟨t2, ht2, hlt2⟩
        injection ht2 with he
        subst he
        linarith
    · have hdec : decide (now - t ≥ cooldown) = false := decide_eq_false hcool
      simp only [hdec, Bool.not_false, if_true]
      constructor
      · rintro (hnone | ⟨t2, ht2, hge2⟩)
        · cases hnone
        · injection ht2 with he
          subst he
          exact absurd (by linarith : now - t ≥ cooldown) hcool
      · intro _
        trivial

theorem alFind_self_pair (key : String) (t0 : ℚ) :
    alFind key [(key, t0)] = some t0 := by
  rw [alFind_cons]
  simp

theorem update_notifications_suppressed (distanceMi : ℚ → ℚ → ℚ → ℚ → ℚ)
    (s : AppState) (d : ApiResponse) (ac : Aircraft) (site : SiteLocation)
    (lat lon : ℚ) (key : String) (t0 now : ℚ)
    (hdm : s.demo_mode = false) (hsite : s.site = some site)
    (hrad : ¬ (s.notify_radius_mi ≤ 0))
    (hd : d.aircraft = [ac])
    (hlat : ac.lat = some lat) (hlon : ac.lon = some lon)
    (hdist : ¬ (distanceMi site.lat site.lon lat lon > s.notify_radius_mi))
    (hkey : aircraftKey ac = some key)
    (hrec : s.notified_recent = [(key, t0)])
    (hnle : s.notifications.length ≤ 10)
    (hcool0 : 0 ≤ s.notify_cooldown)
    (ht0 : t0 ≤ now) (hlt : now - t0 < s.notify_cooldown) :
    update_notifications distanceMi s d now = s := by
  have hsiteOf : siteOf s = some site := by
    simp [siteOf, hdm, hsite]
  have hds : durationSince now t0 = some (now - t0) := by
    simp [durationSince, ht0]
  have hprune : pruneRecent s.notified_recent now
      ((max (4 * ratSecs s.notify_cooldown) 60 : ℕ) : ℚ) = [(key, t0)] := by
    rw [hrec]
    unfold pruneRecent
    simp only [List.filter, hds]
    have hkeep : now - t0 ≤ ((max (4 * ratSecs s.notify_cooldown) 60 : ℕ) : ℚ) :=
      le_trans (le_of_lt hlt) (cooldown_le_maxAge s.notify_cooldown hcool0)
    rw [decide_eq_true hkeep]
  have hmono : ∀ t, alFind key [(key, t0)] = some t → t ≤ now := by
    intro t ht
    have hv := alFind_singleton key key t0 t ht
    subst hv
    exact ht0
  have hstep : notifyStep distanceMi site s.notify_radius_mi s.overpass_mi
      s.notify_cooldown now ([(key, t0)], s.notifications) ac =
      ([(key, t0)], s.notifications) :=
    (notifyStep_spec distanceMi site s.notify_radius_mi s.overpass_mi
      s.notify_cooldown now [(key, t0)] s.notifications ac lat lon key
      hlat hlon hdist hkey hmono).2
      ⟨t0, alFind_self_pair key t0, hlt⟩
  unfold update_notifications
  rw [hsiteOf]
  simp only [if_neg hrad]
  rw [hd]
  simp only [List.foldl_cons, List.foldl_nil, hprune, hstep,
    capNotifications_of_le s.notifications hnle]
  rw [← hrec]

theorem update_notifications_window (distanceMi : ℚ → ℚ → ℚ → ℚ → ℚ)
    (s : AppState) (d : ApiResponse) (ac : Aircraft) (site : SiteLocation)
    (lat lon : ℚ) (key : String) (t0 : ℚ)
    (hdm : s.demo_mode = false) (hsite : s.site = some site)
    (hrad : ¬ (s.notify_radius_mi ≤ 0))
    (hd : d.aircraft = [ac])
    (hlat : ac.lat = some lat) (hlon : ac.lon = some lon)
    (hdist : ¬ (distanceMi site.lat site.lon lat lon > s.notify_radius_mi))
    (hkey : aircraftKey ac = some key)
    (hrec : s.notified_recent = [(key, t0)])
    (hnle : s.notifications.length ≤ 10)
    (hcool0 : 0 ≤ s.notify_cooldown) :
    ∀ ts : List ℚ, (∀ t ∈ ts, t0 ≤ t ∧ t - t0 < s.notify_cooldown) →
      ts.foldl (fun st t => update_notifications distanceMi st d t) s = s := by
  intro ts
  induction ts with
  | nil => intro _; rfl
  | cons t rest ih =>
    intro hmem
    have h1 := hmem t (List.mem_cons_self t rest)
    simp only [List.foldl_cons]
    rw [update_notifications_suppressed distanceMi s d ac site lat lon key t0 t
      hdm hsite hrad hd hlat hlon hdist hkey hrec hnle hcool0 h1.1 h1.2]
    exact ih (fun x hx => hmem x (List.mem_cons_of_mem t hx))

theorem update_notifications_realert (distanceMi : ℚ → ℚ → ℚ → ℚ → ℚ)
    (s : AppState) (d : ApiResponse) (ac : Aircraft) (site : SiteLocation)
    (lat lon : ℚ) (key : String) (t0 now : ℚ)
    (hdm : s.demo_mode = false) (hsite : s.site = some site)
    (hrad : ¬ (s.notify_radius_mi ≤ 0))
    (hd : d.aircraft = [ac])
    (hlat : ac.lat = some lat) (hlon : ac.lon = some lon)
    (hdist : ¬ (distanceMi site.lat site.lon lat lon > s.notify_radius_mi))
    (hkey : aircraftKey ac = some key)
    (hrec : s.notified_recent = [(key, t0)])
    (hn9 : s.notifications.length ≤ 9)
    (ht0 : t0 ≤ now) (hge : s.notify_cooldown ≤ now - t0) :
    (update_notifications distanceMi s d now).notifications.length =
      s.notifications.length + 1 ∧
    (update_notifications distanceMi s d now).notified_recent = [(key, now)] := by
  have hsiteOf : siteOf s = some site := by
    simp [siteOf, hdm, hsite]
  have hds : durationSince now t0 = some (now - t0) := by
    simp [durationSince, ht0]
  have hins1 : alInsert key now [(key, t0)] = [(key, now)] := by
    unfold alInsert
    simp
  have hins0 : alInsert key now ([] : List (String × ℚ)) = [(key, now)] := by
    unfold alInsert
    simp
  unfold update_notifications
  rw [hsiteOf]
  simp only [if_neg hrad]
  rw [hd]
  simp only [List.foldl_cons, List.foldl_nil, hrec]
  unfold pruneRecent
  simp only [List.filter, hds]
  by_cases hkeep : now - t0 ≤ ((max (4 * ratSecs s.notify_cooldown) 60 : ℕ) : ℚ)
  · simp only [decide_eq_true hkeep]
    have hmono : ∀ t, alFind key [(key, t0)] = some t → t ≤ now := by
      intro t ht
      have hv := alFind_singleton key key t0 t ht
      subst hv
      exact ht0
    obtain ⟨h1, msg, h2⟩ := (notifyStep_spec distanceMi site s.notify_radius_mi
      s.overpass_mi s.notify_cooldown now [(key, t0)] s.notifications ac lat lon
      key hlat hlon hdist hkey hmono).1
      (Or.inr ⟨t0, alFind_self_pair key t0, hge⟩)
    constructor
    · show (capNotifications (notifyStep distanceMi site s.notify_radius_mi
        s.overpass_mi s.notify_cooldown now ([(key, t0)], s.notifications)
        ac).2).length = s.notifications.length + 1
      rw [h2]
      rw [capNotifications_of_le _ (by
        rw [List.length_append]
        simp only [List.length_cons, List.length_nil]
        omega)]
      rw [List.length_append]
      simp
    · show (notifyStep distanceMi site s.notify_radius_mi
        s.overpass_mi s.notify_cooldown now ([(key, t0)], s.notifications)
        ac).1 = [(key, now)]
      rw [h1, hins1]
  · simp only [decide_eq_false (by exact hkeep)]
    have hmono0 : ∀ t, alFind key ([] : List (String × ℚ)) = some t → t ≤ now := by
      intro t ht
      cases ht
    obtain ⟨h1, msg, h2⟩ := (notifyStep_spec distanceMi site s.notify_radius_mi
      s.overpass_mi s.notify_cooldown now [] s.notifications ac lat lon
      key hlat hlon hdist hkey hmono0).1 (Or.inl rfl)
    constructor
    · show (capNotifications (notifyStep distanceMi site s.notify_radius_mi
        s.overpass_mi s.notify_cooldown now ([], s.notifications)
        ac).2).length = s.notifications.length + 1
      rw [h2]
      rw [capNotifications_of_le _ (by
        rw [List.length_append]
        simp only [List.length_cons, List.length_nil]
        omega)]
      rw [List.length_append]
      simp
    · show (notifyStep distanceMi site s.notify_radius_mi
        s.overpass_mi s.notify_cooldown now ([], s.notifications)
        ac).1 = [(key, now)]
      rw [h1, hins0]

/-- Claim C3: with a configured site, for an in-range aircraft with an
identity key the proximity pass emits a notification exactly when the key has
no recorded last-alert time or the elapsed time since that alert is at least
the cooldown, and otherwise leaves the state untouched (first conjunct, for
recorded times not in the future); consequently, over any sequence of passes
within one cooldown window after an alert nothing further is emitted per key
(second conjunct), and once the cooldown has elapsed a new notification is
emitted and the recency entry is refreshed (third conjunct).  The
floating-point haversine is the abstract parameter `distanceMi`. -/
theorem proximity_cooldown :
    (∀ (distanceMi : ℚ → ℚ → ℚ → ℚ → ℚ) (site : SiteLocation)
        (radius overpass cooldown now : ℚ) (recent : List (String × ℚ))
        (notifs : List Notification) (ac : Aircraft) (lat lon : ℚ) (key : String),
      ac.lat = some lat → ac.lon = some lon →
      ¬ (distanceMi site.lat site.lon lat lon > radius) →
      aircraftKey ac = some key →
      (∀ t, alFind key recent = some t → t ≤ now) →
      ((alFind key recent = none ∨
          (∃ t, alFind key recent = some t ∧ cooldown ≤ now - t)) →
        (notifyStep distanceMi site radius overpass cooldown now
            (recent, notifs) ac).1 = alInsert key now recent ∧
        ∃ msg, (notifyStep distanceMi site radius overpass cooldown now
            (recent, notifs) ac).2 =
          notifs ++ [{ message := msg, atTime := now }]) ∧
      ((∃ t, alFind key recent = some t ∧ now - t < cooldown) →
        notifyStep distanceMi site radius overpass cooldown now
          (recent, notifs) ac = (recent, notifs))) ∧
    (∀ (distanceMi : ℚ → ℚ → ℚ → ℚ → ℚ) (s : AppState) (d : ApiResponse)
        (ac : Aircraft) (site : SiteLocation) (lat lon : ℚ) (key : String)
        (t0 : ℚ),
      s.demo_mode = false → s.site = some site → ¬ (s.notify_radius_mi ≤ 0) →
      d.aircraft = [ac] → ac.lat = some lat → ac.lon = some lon →
      ¬ (distanceMi site.lat site.lon lat lon > s.notify_radius_mi) →
      aircraftKey ac = some key →
      s.notified_recent = [(key, t0)] →
      s.notifications.length ≤ 10 →
      0 ≤ s.notify_cooldown →
      ∀ ts : List ℚ, (∀ t ∈ ts, t0 ≤ t ∧ t - t0 < s.notify_cooldown) →
        ts.foldl (fun st t => update_notifications distanceMi st d t) s = s) ∧
    (∀ (distanceMi : ℚ → ℚ → ℚ → ℚ → ℚ) (s : AppState) (d : ApiResponse)
        (ac : Aircraft) (site : SiteLocation) (lat lon : ℚ) (key : String)
        (t0 now : ℚ),
      s.demo_mode = false → s.site = some site → ¬ (s.notify_radius_mi ≤ 0) →
      d.aircraft = [ac] → ac.lat = some lat → ac.lon = some lon →
      ¬ (distanceMi site.lat site.lon lat lon > s.notify_radius_mi) →
      aircraftKey ac = some key →
      s.notified_recent = [(key, t0)] →
      s.notifications.length ≤ 9 →
      t0 ≤ now → s.notify_cooldown ≤ now - t0 →
      (update_notifications distanceMi s d now).notifications.length =
        s.notifications.length + 1 ∧
      (update_notifications distanceMi s d now).notified_recent = [(key, now)]) := by
  refine ⟨?_, ?_, ?_⟩
  · intro distanceMi site radius overpass cooldown now recent notifs ac lat lon
      key hlat hlon hdist hkey hmono
    exact notifyStep_spec distanceMi site radius overpass cooldown now recent
      notifs ac lat lon key hlat hlon hdist hkey hmono
  · intro distanceMi s d ac site lat lon key t0 hdm hsite hrad hd hlat hlon
      hdist hkey hrec hnle hcool0
    exact update_notifications_window distanceMi s d ac site lat lon key t0
      hdm hsite hrad hd hlat hlon hdist hkey hrec hnle hcool0
  · intro distanceMi s d ac site lat lon key t0 now hdm hsite hrad hd hlat hlon
      hdist hkey hrec hn9 ht0 hge
    exact update_notifications_realert distanceMi s d ac site lat lon key t0 now
      hdm hsite hrad hd hlat hlon hdist hkey hrec hn9 ht0 hge

/-- Witness for C3: the spec scenario — site `(26, -80)`, radius 10 mi,
cooldown 120 s, aircraft 5 mi out; suppressed at 60 s (and over the sequence
60, 61, 62 s), re-emitted at 120 s. -/
theorem proximity_cooldown_witness :
    ((alFind "hex:ac6668" [(("hex:ac6668" : String), (0 : ℚ))] = none ∨
        (∃ t, alFind "hex:ac6668" [(("hex:ac6668" : String), (0 : ℚ))] = some t ∧
          (120 : ℚ) ≤ 60 - t)) →
      (notifyStep constDist5 siteW 10 2 120 60
          ([("hex:ac6668", 0)], []) acW).1 =
        alInsert "hex:ac6668" 60 [("hex:ac6668", 0)] ∧
      ∃ msg, (notifyStep constDist5 siteW 10 2 120 60
          ([("hex:ac6668", 0)], []) acW).2 =
        [] ++ [{ message := msg, atTime := 60 }]) ∧
    ((∃ t, alFind "hex:ac6668" [(("hex:ac6668" : String), (0 : ℚ))] = some t ∧
        (60 : ℚ) - t < 120) →
      notifyStep constDist5 siteW 10 2 120 60 ([("hex:ac6668", 0)], []) acW =
        ([("hex:ac6668", 0)], [])) ∧
    ([(60 : ℚ), 61, 62].foldl
      (fun st t => update_notifications constDist5 st dW t) sProx = sProx) ∧
    ((update_notifications constDist5 sProx dW 120).notifications.length =
      sProx.notifications.length + 1 ∧
     (update_notifications constDist5 sProx dW 120).notified_recent =
      [("hex:ac6668", 120)]) := by
  have hstep := proximity_cooldown.1 constDist5 siteW 10 2 120 60
    [("hex:ac6668", 0)] [] acW 26 (-80) "hex:ac6668" rfl rfl
    (by norm_num [constDist5, siteW]) (by decide)
    (by
      intro t ht
      have hv := alFind_singleton "hex:ac6668" "hex:ac6668" 0 t ht
      subst hv
      norm_num)
  refine ⟨hstep.1, hstep.2, ?_, ?_⟩
  · exact proximity_cooldown.2.1 constDist5 sProx dW acW siteW 26 (-80)
      "hex:ac6668" 0 rfl rfl (by norm_num [sProx]) rfl rfl rfl
      (by norm_num [constDist5, sProx, siteW]) (by decide) rfl (by decide)
      (by norm_num [sProx]) [60, 61, 62]
      (by
        intro t ht
        simp only [List.mem_cons, List.not_mem_nil, or_false] at ht
        rcases ht with h | h | h <;> subst h <;>
          exact ⟨by norm_num, by norm_num [sProx]⟩)
  · exact proximity_cooldown.2.2 constDist5 sProx dW acW siteW 26 (-80)
      "hex:ac6668" 0 120 rfl rfl (by norm_num [sProx]) rfl rfl rfl
      (by norm_num [constDist5, sProx, siteW]) (by decide) rfl (by decide)
      (by norm_num) (by norm_num [sProx])
